import Mathlib

/-!
Shallow embedding of the ENTSO-E acquisition/normalization engine of the
`energyMapBackend` repository (`entsoe_api/entsoe_data.py`,
`entsoe_api/management/commands/fetch_flows.py`,
`entsoe_api/management/commands/generation_res.py`), together with theorems
settling the frozen specification claims.

Modelling conventions:
* Python strings are `List Char` (named `Str` below); `str.strip` is `pyStrip`,
  Python `int(...)` on a string is `pyInt` (failure = `ValueError`).
* Instants (`datetime`) are integers counting minutes (UTC); a `timedelta` of
  `m` minutes is the integer `m`.  Parsing of a `timeInterval/start` text is
  abstracted: period-start fields carry `Option Int` (the parsed instant),
  `none` meaning the element was absent or its text empty.
* XML documents are structured records whose fields hold exactly what the
  corresponding `findtext`/`find` calls of the source read; `findtext` with a
  default is modelled with `Option.getD`.  For the A11 parser, whose source
  relies on `ElementTree` element truthiness (`find(x) or find(y)`), elements
  are modelled as `XElem` (text plus a has-children flag) and Python's `or` on
  them as `pyOrElem`.
* Numeric payloads (`float(...)` quantities) are modelled as `Int` (prices as
  `Rat`); points whose quantity fails to parse carry `none`, exactly where the
  source stores `None` or skips.
* `list.sort`/`sort_values` (stable sorts) are modelled by `List.insertionSort`
  (a stable sort) over the same comparison keys; `drop_duplicates` keep-first /
  keep-last are `dedupByFirst` / `dedupByLast`.
* `requests` responses are `HttpResp` records; the network is an oracle
  function from attempt index (or chunk / page offset) to the response.
-/

/-! ## Python string primitives -/

abbrev Str := List Char

def pyStrip (s : Str) : Str :=
  ((s.dropWhile Char.isWhitespace).reverse.dropWhile Char.isWhitespace).reverse

def natOfDigits (s : Str) : Nat :=
  s.foldl (fun a c => a * 10 + (c.toNat - 48)) 0

/-- Python `int(s)` restricted to the decimal digit strings this domain uses;
`none` models a raised `ValueError`. -/
def pyInt (s : Str) : Option Nat :=
  if s ≠ [] ∧ s.all Char.isDigit then some (natOfDigits s) else none

/-- Python `int(s or 0)`: the empty string becomes `int(0) = 0`. -/
def pyIntOr (s : Str) : Option Nat :=
  if s = [] then some 0 else pyInt s

/-- Python `try: int(s or 0) except: 0` (the `EntsoePrices` variant). -/
def pyIntOr0 (s : Str) : Nat :=
  (pyIntOr s).getD 0

/-- Split at the first occurrence of `c`: Python `s.split(c, 1)`.  When `c`
does not occur the whole string is the first component (`s.split(c)[0] = s`). -/
def splitFirst (c : Char) : Str → Str × Str
  | [] => ([], [])
  | x :: xs =>
    if x = c then ([], xs)
    else
      let r := splitFirst c xs
      (x :: r.1, r.2)

def takeBefore (c : Char) (s : Str) : Str := (splitFirst c s).1

def afterFirst (c : Char) (s : Str) : Str := (splitFirst c s).2

/-! ## Duration codec (`_iso8601_duration_to_minutes`)

Two source variants exist: `EntsoeGenerationByType._iso8601_duration_to_minutes`
(and the identical `generation_res._iso_duration_to_minutes`), where a
malformed numeric field raises `ValueError`, and
`EntsoePrices._iso8601_duration_to_minutes` (and the identical
`EntsoePhysicalFlows` copy), where every `int(...)` is wrapped in
`try/except` falling back to `0`. -/

/-- `days = int(date_part.replace("P","").split("D")[0] or 0)` guarded by
`"D" in date_part`. -/
def codecDays (datePart : Str) : Option Nat :=
  if datePart.contains 'D' then
    pyIntOr (takeBefore 'D' (datePart.filter (fun c => c ≠ 'P')))
  else some 0

/-- The hours step: returns the parsed hours and the remaining time part
(`time_part.split("H", 1)[1]`). -/
def codecHours (timePart : Str) : Option (Nat × Str) :=
  if timePart.contains 'H' then
    match pyIntOr (takeBefore 'H' timePart) with
    | some h => some (h, afterFirst 'H' timePart)
    | none => none
  else some (0, timePart)

def codecMinutes (timePart : Str) : Option Nat :=
  if timePart.contains 'M' then pyIntOr (takeBefore 'M' timePart) else some 0

/-- `date_part, time_part = duration.split("T", 1)` guarded by `"T" in duration`
(otherwise `date_part, time_part = duration, ""`). -/
def durParts (duration : Str) : Str × Str :=
  if duration.contains 'T' then splitFirst 'T' duration else (duration, [])

/-- `EntsoeGenerationByType._iso8601_duration_to_minutes` (raising variant):
`none` models a propagated `ValueError`. -/
def iso8601_duration_to_minutes (duration : Str) : Option Nat :=
  if duration.head? ≠ some 'P' then some 0
  else
    match codecDays (durParts duration).1 with
    | none => none
    | some days =>
      match codecHours (durParts duration).2 with
      | none => none
      | some (hours, rest) =>
        match codecMinutes rest with
        | none => none
        | some minutes => some (days * 1440 + hours * 60 + minutes)

def codecDays0 (datePart : Str) : Nat :=
  if datePart.contains 'D' then
    pyIntOr0 (takeBefore 'D' (datePart.filter (fun c => c ≠ 'P')))
  else 0

def codecHours0 (timePart : Str) : Nat × Str :=
  if timePart.contains 'H' then (pyIntOr0 (takeBefore 'H' timePart), afterFirst 'H' timePart)
  else (0, timePart)

def codecMinutes0 (timePart : Str) : Nat :=
  if timePart.contains 'M' then pyIntOr0 (takeBefore 'M' timePart) else 0

/-- `EntsoePrices._iso8601_duration_to_minutes` (total variant: each numeric
field falls back to 0 on a parse failure). -/
def iso8601_duration_to_minutes_prices (duration : Str) : Nat :=
  if duration.head? ≠ some 'P' then 0
  else
    codecDays0 (durParts duration).1 * 1440 + (codecHours0 (durParts duration).2).1 * 60 +
      codecMinutes0 (codecHours0 (durParts duration).2).2

/-- `EntsoePhysicalFlows._iso8601_duration_to_minutes` is character-for-character
the same function as the `EntsoePrices` variant. -/
def iso8601_duration_to_minutes_flows (duration : Str) : Nat :=
  iso8601_duration_to_minutes_prices duration

def dayPartOf : Option Str → Str
  | some ds => ds ++ ['D']
  | none => []

def hourPartOf : Option Str → Str
  | some hs => hs ++ ['H']
  | none => []

def minutePartOf : Option Str → Str
  | some ms => ms ++ ['M']
  | none => []

def timePartOf (hh mm : Option Str) : Str :=
  if hh = none ∧ mm = none then [] else 'T' :: (hourPartOf hh ++ minutePartOf mm)

/-- The claim input shape `P[nD][T[nH][nM]]`: each component is an optional
digit string; the `T` is present exactly when an hour or minute component is. -/
def durationOfParts (dd hh mm : Option Str) : Str :=
  'P' :: (dayPartOf dd ++ timePartOf hh mm)

def partVal (o : Option Str) : Nat :=
  match o with
  | some s => natOfDigits s
  | none => 0

/-! ### Facts about the string primitives -/

theorem contains_iff_mem {c : Char} {s : Str} : s.contains c = true ↔ c ∈ s := by
  induction s with
  | nil => simp
  | cons x xs ih => simp [List.contains, List.elem_cons]

theorem contains_eq_false {c : Char} {s : Str} (h : c ∉ s) : s.contains c = false := by
  cases hc : s.contains c with
  | false => rfl
  | true => exact absurd (contains_iff_mem.mp hc) h

theorem splitFirst_of_not_mem {c : Char} {s : Str} (h : c ∉ s) : splitFirst c s = (s, []) := by
  induction s with
  | nil => rfl
  | cons x xs ih =>
    have hx : x ≠ c := fun he => h (he ▸ List.mem_cons_self x xs)
    have hxs : c ∉ xs := fun hm => h (List.mem_cons_of_mem x hm)
    simp [splitFirst, hx, ih hxs]

theorem splitFirst_append {c : Char} {s t : Str} (h : c ∉ s) :
    splitFirst c (s ++ c :: t) = (s, t) := by
  induction s with
  | nil => simp [splitFirst]
  | cons x xs ih =>
    have hx : x ≠ c := fun he => h (he ▸ List.mem_cons_self x xs)
    have hxs : c ∉ xs := fun hm => h (List.mem_cons_of_mem x hm)
    simp [splitFirst, hx, ih hxs]

theorem digits_not_mem {s : Str} (hs : s.all Char.isDigit = true) {c : Char}
    (hc : c.isDigit = false) : c ∉ s := by
  intro hm
  have := (List.all_eq_true.mp hs) c hm
  rw [hc] at this
  exact Bool.false_ne_true this

theorem pyIntOr_digits {s : Str} (hs : s.all Char.isDigit = true) :
    pyIntOr s = some (natOfDigits s) := by
  rcases s with _ | ⟨x, xs⟩
  · simp [pyIntOr, natOfDigits]
  · simp [pyIntOr, pyInt, hs]

theorem pyIntOr0_digits {s : Str} (hs : s.all Char.isDigit = true) :
    pyIntOr0 s = natOfDigits s := by
  simp [pyIntOr0, pyIntOr_digits hs]

theorem filter_neP_of_not_mem {s : Str} (h : 'P' ∉ s) :
    s.filter (fun c => c ≠ 'P') = s := by
  refine List.filter_eq_self.mpr ?_
  intro a ha
  simp only [ne_eq, decide_eq_true_eq]
  exact fun he => h (he ▸ ha)

/-! ### Codec component lemmas -/

theorem filter_neP_cons {s : Str} (hP : 'P' ∉ s) :
    ('P' :: s).filter (fun c => c ≠ 'P') = s := by
  simp [List.filter_cons]
  exact fun a ha he => hP (he ▸ ha)

theorem codecDays_date {ds : Str} (hds : ds.all Char.isDigit = true) :
    codecDays ('P' :: ds ++ ['D']) = some (natOfDigits ds) := by
  have hD : ('P' :: ds ++ ['D']).contains 'D' = true :=
    contains_iff_mem.mpr (by simp)
  have hP : 'P' ∉ ds := digits_not_mem hds (by decide)
  have hDd : 'D' ∉ ds := digits_not_mem hds (by decide)
  have hfilter : ('P' :: ds ++ ['D']).filter (fun c => c ≠ 'P') = ds ++ ['D'] := by
    refine filter_neP_cons ?_
    intro hmem
    rcases List.mem_append.mp hmem with h | h
    · exact hP h
    · exact absurd (List.mem_singleton.mp h).symm (by decide)
  have htake : takeBefore 'D' (ds ++ ['D']) = ds := by
    have h := splitFirst_append (c := 'D') (s := ds) (t := []) hDd
    rw [takeBefore, h]
  unfold codecDays
  rw [if_pos hD, hfilter, htake, pyIntOr_digits hds]

theorem codecDays_bare : codecDays ['P'] = some 0 := by decide

theorem codecDays0_date {ds : Str} (hds : ds.all Char.isDigit = true) :
    codecDays0 ('P' :: ds ++ ['D']) = natOfDigits ds := by
  have h := codecDays_date hds
  unfold codecDays at h
  unfold codecDays0
  rw [if_pos (contains_iff_mem.mpr (by simp))] at h ⊢
  rw [pyIntOr0, h]
  rfl

theorem codecDays0_bare : codecDays0 ['P'] = 0 := by decide

theorem codecHours_hit {hs rest : Str} (hd : hs.all Char.isDigit = true) :
    codecHours (hs ++ 'H' :: rest) = some (natOfDigits hs, rest) := by
  have hH : (hs ++ 'H' :: rest).contains 'H' = true := contains_iff_mem.mpr (by simp)
  have hHs : 'H' ∉ hs := digits_not_mem hd (by decide)
  have hsplit := splitFirst_append (c := 'H') (s := hs) (t := rest) hHs
  unfold codecHours
  rw [if_pos hH, takeBefore, afterFirst, hsplit, pyIntOr_digits hd]

theorem codecHours_miss {t : Str} (h : 'H' ∉ t) : codecHours t = some (0, t) := by
  unfold codecHours
  rw [contains_eq_false h]
  rfl

theorem codecHours0_hit {hs rest : Str} (hd : hs.all Char.isDigit = true) :
    codecHours0 (hs ++ 'H' :: rest) = (natOfDigits hs, rest) := by
  have hH : (hs ++ 'H' :: rest).contains 'H' = true := contains_iff_mem.mpr (by simp)
  have hHs : 'H' ∉ hs := digits_not_mem hd (by decide)
  have hsplit := splitFirst_append (c := 'H') (s := hs) (t := rest) hHs
  unfold codecHours0
  rw [if_pos hH, takeBefore, afterFirst, hsplit, pyIntOr0_digits hd]

theorem codecHours0_miss {t : Str} (h : 'H' ∉ t) : codecHours0 t = (0, t) := by
  unfold codecHours0
  rw [contains_eq_false h]
  rfl

theorem codecMinutes_hit {ms : Str} (hd : ms.all Char.isDigit = true) :
    codecMinutes (ms ++ ['M']) = some (natOfDigits ms) := by
  have hM : (ms ++ ['M']).contains 'M' = true := contains_iff_mem.mpr (by simp)
  have hMs : 'M' ∉ ms := digits_not_mem hd (by decide)
  have hsplit := splitFirst_append (c := 'M') (s := ms) (t := []) hMs
  unfold codecMinutes
  rw [if_pos hM, takeBefore, hsplit, pyIntOr_digits hd]

theorem codecMinutes_miss {t : Str} (h : 'M' ∉ t) : codecMinutes t = some 0 := by
  unfold codecMinutes
  rw [contains_eq_false h]
  rfl

theorem codecMinutes0_hit {ms : Str} (hd : ms.all Char.isDigit = true) :
    codecMinutes0 (ms ++ ['M']) = natOfDigits ms := by
  have hM : (ms ++ ['M']).contains 'M' = true := contains_iff_mem.mpr (by simp)
  have hMs : 'M' ∉ ms := digits_not_mem hd (by decide)
  have hsplit := splitFirst_append (c := 'M') (s := ms) (t := []) hMs
  unfold codecMinutes0
  rw [if_pos hM, takeBefore, hsplit, pyIntOr0_digits hd]

theorem codecMinutes0_miss {t : Str} (h : 'M' ∉ t) : codecMinutes0 t = 0 := by
  unfold codecMinutes0
  rw [contains_eq_false h]
  rfl

theorem durParts_hit {D TP : Str} (hT : 'T' ∉ 'P' :: D) :
    durParts (('P' :: D) ++ 'T' :: TP) = ('P' :: D, TP) := by
  have hc : (('P' :: D) ++ 'T' :: TP).contains 'T' = true := contains_iff_mem.mpr (by simp)
  unfold durParts
  rw [if_pos hc, splitFirst_append hT]

theorem durParts_miss {d : Str} (hT : 'T' ∉ d) : durParts d = (d, []) := by
  unfold durParts
  rw [contains_eq_false hT]
  rfl

theorem iso_gen_eval {D TP : Str} {dv hv mv : Nat} {rest : Str} (hT : 'T' ∉ 'P' :: D)
    (hd : codecDays ('P' :: D) = some dv) (hhr : codecHours TP = some (hv, rest))
    (hm : codecMinutes rest = some mv) :
    iso8601_duration_to_minutes (('P' :: D) ++ 'T' :: TP) = some (dv * 1440 + hv * 60 + mv) := by
  unfold iso8601_duration_to_minutes
  rw [if_neg (by simp), durParts_hit hT]
  simp only [hd, hhr, hm]

theorem iso_gen_eval_noT {D : Str} {dv : Nat} (hT : 'T' ∉ 'P' :: D)
    (hd : codecDays ('P' :: D) = some dv) :
    iso8601_duration_to_minutes ('P' :: D) = some (dv * 1440 + 0 * 60 + 0) := by
  unfold iso8601_duration_to_minutes
  rw [if_neg (by simp), durParts_miss hT]
  simp only [hd, codecHours_miss (List.not_mem_nil 'H'), codecMinutes_miss (List.not_mem_nil 'M')]

theorem iso_prices_eval {D TP : Str} (hT : 'T' ∉ 'P' :: D) :
    iso8601_duration_to_minutes_prices (('P' :: D) ++ 'T' :: TP) =
      codecDays0 ('P' :: D) * 1440 + (codecHours0 TP).1 * 60 +
        codecMinutes0 (codecHours0 TP).2 := by
  unfold iso8601_duration_to_minutes_prices
  rw [if_neg (by simp), durParts_hit hT]

theorem iso_prices_eval_noT {D : Str} (hT : 'T' ∉ 'P' :: D) :
    iso8601_duration_to_minutes_prices ('P' :: D) =
      codecDays0 ('P' :: D) * 1440 + 0 * 60 + 0 := by
  unfold iso8601_duration_to_minutes_prices
  rw [if_neg (by simp), durParts_miss hT]
  simp only [codecHours0_miss (List.not_mem_nil 'H'), codecMinutes0_miss (List.not_mem_nil 'M')]

/-- The string the claim shape denotes always decodes, on both codec variants,
to `days * 1440 + hours * 60 + minutes`. -/
theorem codec_ofParts (dd hh mm : Option Str)
    (h1 : ∀ s ∈ dd, s.all Char.isDigit = true)
    (h2 : ∀ s ∈ hh, s.all Char.isDigit = true)
    (h3 : ∀ s ∈ mm, s.all Char.isDigit = true) :
    iso8601_duration_to_minutes (durationOfParts dd hh mm) =
        some (partVal dd * 1440 + partVal hh * 60 + partVal mm) ∧
      iso8601_duration_to_minutes_prices (durationOfParts dd hh mm) =
        partVal dd * 1440 + partVal hh * 60 + partVal mm := by
  have hDayPart : codecDays ('P' :: dayPartOf dd) = some (partVal dd) ∧
      codecDays0 ('P' :: dayPartOf dd) = partVal dd := by
    rcases dd with _ | ds
    · exact ⟨codecDays_bare, codecDays0_bare⟩
    · have hds := h1 ds rfl
      exact ⟨codecDays_date hds, codecDays0_date hds⟩
  have hT : 'T' ∉ 'P' :: dayPartOf dd := by
    rcases dd with _ | ds
    · intro hmem
      simp [dayPartOf] at hmem
    · have hds := h1 ds rfl
      intro hmem
      rcases List.mem_cons.mp hmem with h | h
      · exact absurd h (by decide)
      · rcases List.mem_append.mp h with h | h
        · exact digits_not_mem hds (by decide) h
        · exact absurd (List.mem_singleton.mp h) (by decide)
  rcases hh with _ | hs <;> rcases mm with _ | ms
  · -- no time component at all: no `T` is emitted
    have hshape : durationOfParts dd none none = 'P' :: dayPartOf dd := by
      simp [durationOfParts, timePartOf]
    refine ⟨?_, ?_⟩
    · rw [hshape, iso_gen_eval_noT hT hDayPart.1]
      simp [partVal]
    · rw [hshape, iso_prices_eval_noT hT, hDayPart.2]
      simp [partVal]
  · -- minutes only
    have hms := h3 ms rfl
    have hshape : durationOfParts dd none (some ms) =
        ('P' :: dayPartOf dd) ++ 'T' :: (ms ++ ['M']) := by
      simp [durationOfParts, timePartOf, hourPartOf, minutePartOf]
    have hHmiss : 'H' ∉ ms ++ ['M'] := by
      intro hmem
      rcases List.mem_append.mp hmem with h | h
      · exact digits_not_mem hms (by decide) h
      · exact absurd (List.mem_singleton.mp h) (by decide)
    refine ⟨?_, ?_⟩
    · rw [hshape, iso_gen_eval hT hDayPart.1 (codecHours_miss hHmiss) (codecMinutes_hit hms)]
      simp [partVal]
    · rw [hshape, iso_prices_eval hT, hDayPart.2, codecHours0_miss hHmiss,
        codecMinutes0_hit hms]
      simp [partVal]
  · -- hours only
    have hhs := h2 hs rfl
    have hshape : durationOfParts dd (some hs) none =
        ('P' :: dayPartOf dd) ++ 'T' :: (hs ++ 'H' :: []) := by
      simp [durationOfParts, timePartOf, hourPartOf, minutePartOf]
    refine ⟨?_, ?_⟩
    · rw [hshape, iso_gen_eval hT hDayPart.1 (codecHours_hit hhs)
        (codecMinutes_miss (List.not_mem_nil 'M'))]
      simp [partVal]
    · rw [hshape, iso_prices_eval hT, hDayPart.2, codecHours0_hit hhs,
        codecMinutes0_miss (List.not_mem_nil 'M')]
      simp [partVal]
  · -- hours and minutes
    have hhs := h2 hs rfl
    have hms := h3 ms rfl
    have hshape : durationOfParts dd (some hs) (some ms) =
        ('P' :: dayPartOf dd) ++ 'T' :: (hs ++ 'H' :: (ms ++ ['M'])) := by
      simp [durationOfParts, timePartOf, hourPartOf, minutePartOf]
    refine ⟨?_, ?_⟩
    · rw [hshape, iso_gen_eval hT hDayPart.1 (codecHours_hit hhs) (codecMinutes_hit hms)]
      simp [partVal]
    · rw [hshape, iso_prices_eval hT, hDayPart.2, codecHours0_hit hhs, codecMinutes0_hit hms]
      simp [partVal]

/-! ## Window planner (`EntsoeGenerationByType._chunk_datetimes`)

The source loop `while cur < end: nxt = min(cur + timedelta(days=max_days), end);
yield (cur, nxt); cur = nxt` is embedded with an explicit fuel argument (the
loop runs at most `end - cur` times whenever `max_days` is positive, so the
fuel `(end - start).toNat` never runs out in those cases). -/

def chunk_datetimes_aux (maxLen e : Int) : Nat → Int → List (Int × Int)
  | 0, _ => []
  | fuel + 1, cur =>
    if cur < e then (cur, min (cur + maxLen) e) :: chunk_datetimes_aux maxLen e fuel (min (cur + maxLen) e)
    else []

def chunk_datetimes (start e maxLen : Int) : List (Int × Int) :=
  chunk_datetimes_aux maxLen e (e - start).toNat start

/-- `max_days = 365` converted to this embedding's minute scale. -/
def maxSpanMinutes : Int := 365 * 1440

theorem chunk_aux_stop {maxLen e : Int} {fuel : Nat} {cur : Int} (h : ¬ cur < e) :
    chunk_datetimes_aux maxLen e fuel cur = [] := by
  cases fuel with
  | zero => rfl
  | succ n => simp [chunk_datetimes_aux, h]

theorem chunk_aux_spec {maxLen e : Int} (hm : 0 < maxLen) :
    ∀ (fuel : Nat) (cur : Int), cur < e → (e - cur).toNat ≤ fuel →
      (chunk_datetimes_aux maxLen e fuel cur).head?.map Prod.fst = some cur ∧
      (chunk_datetimes_aux maxLen e fuel cur).getLast?.map Prod.snd = some e ∧
      List.Chain' (fun p q => p.2 = q.1) (chunk_datetimes_aux maxLen e fuel cur) ∧
      ∀ p ∈ chunk_datetimes_aux maxLen e fuel cur, p.1 < p.2 ∧ p.2 - p.1 ≤ maxLen := by
  intro fuel
  induction fuel with
  | zero =>
    intro cur hlt hfuel
    exact absurd hfuel (by omega)
  | succ n ih =>
    intro cur hlt hfuel
    by_cases hnext : cur + maxLen < e
    · have hmin : min (cur + maxLen) e = cur + maxLen := min_eq_left (le_of_lt hnext)
      rcases ih (cur + maxLen) hnext (by omega) with ⟨hhead, hlast, hchain, hbounds⟩
      simp only [chunk_datetimes_aux, if_pos hlt, hmin]
      cases hx : chunk_datetimes_aux maxLen e n (cur + maxLen) with
      | nil =>
        rw [hx] at hhead
        simp at hhead
      | cons z zs =>
        rw [hx] at hhead hlast hchain
        have hz1 : z.1 = cur + maxLen := by
          simp only [List.head?_cons, Option.map_some] at hhead
          exact Option.some.inj hhead
        refine ⟨by simp, ?_, ?_, ?_⟩
        · rw [List.getLast?_cons_cons]
          exact hlast
        · rw [List.chain'_cons]
          exact ⟨by simp [hz1], hchain⟩
        · intro p hp
          rcases List.mem_cons.mp hp with h | h
          · rw [h]
            exact ⟨show cur < cur + maxLen by omega, show cur + maxLen - cur ≤ maxLen by omega⟩
          · exact hbounds p (by rw [hx]; exact h)
    · have hmin : min (cur + maxLen) e = e := min_eq_right (by omega)
      simp only [chunk_datetimes_aux, if_pos hlt, hmin]
      rw [chunk_aux_stop (lt_irrefl e)]
      refine ⟨by simp, by simp, by simp, ?_⟩
      intro p hp
      rcases List.mem_singleton.mp hp with h
      rw [h]
      exact ⟨hlt, by omega⟩

theorem chunk_datetimes_spec {s e maxLen : Int} (hm : 0 < maxLen) (hlt : s < e) :
    (chunk_datetimes s e maxLen).head?.map Prod.fst = some s ∧
    (chunk_datetimes s e maxLen).getLast?.map Prod.snd = some e ∧
    List.Chain' (fun p q => p.2 = q.1) (chunk_datetimes s e maxLen) ∧
    ∀ p ∈ chunk_datetimes s e maxLen, p.1 < p.2 ∧ p.2 - p.1 ≤ maxLen :=
  chunk_aux_spec hm (e - s).toNat s hlt (le_refl _)

theorem chunk_datetimes_degenerate {s e maxLen : Int} (h : e ≤ s) :
    chunk_datetimes s e maxLen = [] :=
  chunk_aux_stop (by omega)

/-! ## Resilient fetcher (`_request_with_retries`)

`EntsoeInstalledCapacity`, `EntsoeGenerationByType` and `EntsoePhysicalFlows`
share one retry loop (429/5xx retried with doubling backoff capped at 30,
`Retry-After` honored for that attempt, `raise_for_status` on other errors,
`TimeoutError` after the budget).  `EntsoePrices._request_with_retries` is a
single `GET` that returns the body only on HTTP 200 and `None` otherwise.

`HttpResp.retryAfter` holds the numeric value of a parseable `Retry-After`
header; `none` covers both a missing header and an unparseable one (the
source falls back to the computed backoff in both cases).  The backoff starts
at `1.0` and stays integral (`min(b*2, 30)`), so it is carried as a `Nat`. -/

structure HttpResp where
  status : Nat
  body : Str
  retryAfter : Option Nat
deriving DecidableEq

inductive FetchResult where
  /-- `return r.text` (status 200, non-blank body): body, attempts made, sleeps performed. -/
  | ok (body : Str) (attempts : Nat) (waits : List Nat)
  /-- `r.raise_for_status()` raised on a non-retryable 4xx/5xx status. -/
  | raised (attempts : Nat) (waits : List Nat)
  /-- `raise TimeoutError(...)` after the retry budget was spent. -/
  | exhausted (attempts : Nat) (waits : List Nat)
deriving DecidableEq

def retryableStatus (s : Nat) : Bool :=
  s = 429 || s = 500 || s = 502 || s = 503 || s = 504

def request_loop (resp : Nat → HttpResp) : Nat → Nat → Nat → List Nat → FetchResult
  | 0, i, _, waits => .exhausted i waits
  | n + 1, i, backoff, waits =>
    if (resp i).status = 200 ∧ pyStrip (resp i).body ≠ [] then .ok (resp i).body (i + 1) waits
    else if retryableStatus (resp i).status then
      request_loop resp n (i + 1) (min (backoff * 2) 30)
        (waits ++ [(resp i).retryAfter.getD backoff])
    else if 400 ≤ (resp i).status ∧ (resp i).status < 600 then .raised (i + 1) waits
    else
      -- e.g. a 200 with a blank body: fall through to the next loop iteration
      -- with no sleep and an unchanged backoff
      request_loop resp n (i + 1) backoff waits

def request_with_retries (resp : Nat → HttpResp) (maxRetries : Nat) : FetchResult :=
  request_loop resp maxRetries 0 1 []

/-- `EntsoePrices._request_with_retries`: one `GET`; the body is returned on
status 200 and `None` otherwise (also on a transport exception, which the
source only prints).  The second component counts attempts (always 1). -/
def prices_request_with_retries (resp : Nat → HttpResp) : Option Str × Nat :=
  (if (resp 0).status = 200 then some (resp 0).body else none, 1)

theorem retryable_ne_200 {s : Nat} (h : retryableStatus s = true) : ¬ (s = 200) := by
  rcases Bool.or_eq_true_iff.mp h with h | h
  · rcases Bool.or_eq_true_iff.mp h with h | h
    · rcases Bool.or_eq_true_iff.mp h with h | h
      · rcases Bool.or_eq_true_iff.mp h with h | h <;> (simp at h; omega)
      · simp at h; omega
    · simp at h; omega
  · simp at h; omega

theorem request_loop_retry_step {resp : Nat → HttpResp} {n i backoff : Nat} {waits : List Nat}
    (h : retryableStatus (resp i).status = true) :
    request_loop resp (n + 1) i backoff waits =
      request_loop resp n (i + 1) (min (backoff * 2) 30)
        (waits ++ [(resp i).retryAfter.getD backoff]) := by
  have h200 : ¬ ((resp i).status = 200 ∧ pyStrip (resp i).body ≠ []) := by
    intro hc
    exact retryable_ne_200 h hc.1
  simp only [request_loop, if_neg h200, if_pos h]

theorem request_loop_success_step {resp : Nat → HttpResp} {n i backoff : Nat} {waits : List Nat}
    (h : (resp i).status = 200) (hb : pyStrip (resp i).body ≠ []) :
    request_loop resp (n + 1) i backoff waits = .ok (resp i).body (i + 1) waits := by
  simp only [request_loop, if_pos (And.intro h hb)]

/-- Three retryable responses followed by a full-bodied 200: four attempts,
the successful body is returned, and the three sleeps are the `Retry-After`
override where present, else the doubling backoff `1, 2, 4`. -/
theorem retry_scenario_success (resp : Nat → HttpResp)
    (h0 : retryableStatus (resp 0).status = true)
    (h1 : retryableStatus (resp 1).status = true)
    (h2 : retryableStatus (resp 2).status = true)
    (h3 : (resp 3).status = 200) (hb : pyStrip (resp 3).body ≠ []) :
    request_with_retries resp 5 =
      .ok (resp 3).body 4
        [(resp 0).retryAfter.getD 1, (resp 1).retryAfter.getD 2, (resp 2).retryAfter.getD 4] := by
  unfold request_with_retries
  rw [show (5 : Nat) = 4 + 1 from rfl, request_loop_retry_step h0]
  rw [show (4 : Nat) = 3 + 1 from rfl, request_loop_retry_step h1]
  rw [show (3 : Nat) = 2 + 1 from rfl, request_loop_retry_step h2]
  rw [show (2 : Nat) = 1 + 1 from rfl, request_loop_success_step h3 hb]
  rfl

/-- Five retryable responses exhaust the default budget: `TimeoutError` after
5 attempts, with backoffs `1, 2, 4, 8, 16` (each overridable per attempt). -/
theorem retry_scenario_exhausted (resp : Nat → HttpResp)
    (h : ∀ i, i < 5 → retryableStatus (resp i).status = true) :
    request_with_retries resp 5 =
      .exhausted 5
        [(resp 0).retryAfter.getD 1, (resp 1).retryAfter.getD 2, (resp 2).retryAfter.getD 4,
          (resp 3).retryAfter.getD 8, (resp 4).retryAfter.getD 16] := by
  unfold request_with_retries
  rw [show (5 : Nat) = 4 + 1 from rfl, request_loop_retry_step (h 0 (by omega))]
  rw [show (4 : Nat) = 3 + 1 from rfl, request_loop_retry_step (h 1 (by omega))]
  rw [show (3 : Nat) = 2 + 1 from rfl, request_loop_retry_step (h 2 (by omega))]
  rw [show (2 : Nat) = 1 + 1 from rfl, request_loop_retry_step (h 3 (by omega))]
  rw [show (1 : Nat) = 0 + 1 from rfl, request_loop_retry_step (h 4 (by omega))]
  rfl

/-! ## Sort-key orders

Python's `list.sort(key=...)` and pandas `sort_values` compare key tuples of
timestamps and strings.  Each key component gets a boolean strict total order;
`lexLtB` combines two of them lexicographically; rows are sorted by the
reflexive negation (`le a b := lt (key b) (key a) = false`), which is total and
transitive, with `List.insertionSort` (stable, like the source sorts). -/

def strLtB : Str → Str → Bool
  | [], [] => false
  | [], _ :: _ => true
  | _ :: _, [] => false
  | a :: as, b :: bs => if a < b then true else if b < a then false else strLtB as bs

def intLtB (a b : Int) : Bool := decide (a < b)

/-- pandas `sort_values` places null (`NaN`/`None`) keys last (`na_position='last'`). -/
def optStrNaLastLtB : Option Str → Option Str → Bool
  | some a, some b => strLtB a b
  | some _, none => true
  | none, some _ => false
  | none, none => false

def lexLtB (la : α → α → Bool) (lb : β → β → Bool) (x y : α × β) : Bool :=
  if la x.1 y.1 then true else if la y.1 x.1 then false else lb x.2 y.2

/-- A strict total order packaged as a boolean comparator. -/
structure IsSTO (lt : α → α → Bool) : Prop where
  asymm : ∀ a b, lt a b = true → lt b a = false
  trans : ∀ a b c, lt a b = true → lt b c = true → lt a c = true
  conn : ∀ a b, lt a b = false → lt b a = false → a = b

theorem intLtB_sto : IsSTO intLtB := by
  refine ⟨?_, ?_, ?_⟩ <;> intro a b <;> simp [intLtB] <;> omega

theorem strLtB_sto : IsSTO strLtB := by
  refine ⟨?_, ?_, ?_⟩
  · intro a
    induction a with
    | nil => intro b h; cases b <;> simp [strLtB] at h ⊢
    | cons x xs ih =>
      intro b h
      cases b with
      | nil => simp [strLtB] at h
      | cons y ys =>
        simp only [strLtB] at h ⊢
        rcases lt_trichotomy x y with hxy | hxy | hxy
        · simp [hxy, lt_asymm hxy]
        · subst hxy
          simp [lt_irrefl] at h ⊢
          exact ih ys h
        · simp [hxy, lt_asymm hxy] at h
  · intro a
    induction a with
    | nil =>
      intro b c hab hbc
      cases b with
      | nil => exact hbc
      | cons y ys => cases c with
        | nil => simp [strLtB] at hbc
        | cons z zs => simp [strLtB]
    | cons x xs ih =>
      intro b c hab hbc
      cases b with
      | nil => simp [strLtB] at hab
      | cons y ys =>
        cases c with
        | nil => simp [strLtB] at hbc
        | cons z zs =>
          simp only [strLtB] at hab hbc ⊢
          rcases lt_trichotomy x y with hxy | hxy | hxy
          · rcases lt_trichotomy y z with hyz | hyz | hyz
            · simp [lt_trans hxy hyz]
            · subst hyz; simp [hxy]
            · by_cases hxz : x < z
              · simp [hxz]
              · simp [hxy, lt_asymm hxy] at hab
                simp [hyz, lt_asymm hyz] at hbc
          · subst hxy
            rcases lt_trichotomy x z with hyz | hyz | hyz
            · simp [hyz]
            · subst hyz
              simp [lt_irrefl] at hab hbc ⊢
              exact ih ys zs hab hbc
            · simp [hyz, lt_asymm hyz] at hbc
          · simp [hxy, lt_asymm hxy] at hab
  · intro a
    induction a with
    | nil =>
      intro b h1 h2
      cases b with
      | nil => rfl
      | cons y ys => simp [strLtB] at h1
    | cons x xs ih =>
      intro b h1 h2
      cases b with
      | nil => simp [strLtB] at h2
      | cons y ys =>
        simp only [strLtB] at h1 h2
        rcases lt_trichotomy x y with hxy | hxy | hxy
        · simp [hxy] at h1
        · subst hxy
          simp [lt_irrefl] at h1 h2
          rw [ih ys h1 h2]
        · simp [hxy] at h2

theorem optStrNaLastLtB_sto : IsSTO optStrNaLastLtB := by
  refine ⟨?_, ?_, ?_⟩
  · rintro (_ | a) (_ | b) h <;> simp [optStrNaLastLtB] at h ⊢
    exact strLtB_sto.asymm a b h
  · rintro (_ | a) (_ | b) (_ | c) hab hbc <;> simp [optStrNaLastLtB] at hab hbc ⊢
    exact strLtB_sto.trans a b c hab hbc
  · rintro (_ | a) (_ | b) h1 h2 <;> simp [optStrNaLastLtB] at h1 h2 ⊢
    exact strLtB_sto.conn a b h1 h2

theorem isSTO_irrefl {lt : α → α → Bool} (h : IsSTO lt) (x : α) : lt x x = false := by
  cases hx : lt x x
  · rfl
  · have h2 := h.asymm x x hx
    rw [hx] at h2
    exact h2

theorem lexLtB_sto {la : α → α → Bool} {lb : β → β → Bool}
    (ha : IsSTO la) (hb : IsSTO lb) : IsSTO (lexLtB la lb) := by
  refine ⟨?_, ?_, ?_⟩
  · rintro ⟨a1, a2⟩ ⟨b1, b2⟩ h
    simp only [lexLtB] at h ⊢
    by_cases h1 : la a1 b1 = true
    · rw [if_neg (by simp [ha.asymm _ _ h1]), if_pos h1]
    · rw [if_neg h1] at h
      by_cases h2 : la b1 a1 = true
      · rw [if_pos h2] at h
        exact absurd h (by simp)
      · rw [if_neg h2] at h
        rw [if_neg h2, if_neg h1]
        exact hb.asymm _ _ h
  · rintro ⟨a1, a2⟩ ⟨b1, b2⟩ ⟨c1, c2⟩ hab hbc
    simp only [lexLtB] at hab hbc ⊢
    by_cases h1 : la a1 b1 = true
    · by_cases h2 : la b1 c1 = true
      · rw [if_pos (ha.trans _ _ _ h1 h2)]
      · rw [if_neg h2] at hbc
        by_cases h3 : la c1 b1 = true
        · rw [if_pos h3] at hbc
          exact absurd hbc (by simp)
        · have hbc1 : b1 = c1 :=
            ha.conn _ _ (Bool.eq_false_iff.mpr h2) (Bool.eq_false_iff.mpr h3)
          rw [← hbc1, if_pos h1]
    · rw [if_neg h1] at hab
      by_cases h2 : la b1 a1 = true
      · rw [if_pos h2] at hab
        exact absurd hab (by simp)
      · rw [if_neg h2] at hab
        have hab1 : a1 = b1 :=
          ha.conn _ _ (Bool.eq_false_iff.mpr h1) (Bool.eq_false_iff.mpr h2)
        by_cases h3 : la b1 c1 = true
        · rw [hab1, if_pos h3]
        · rw [if_neg h3] at hbc
          by_cases h4 : la c1 b1 = true
          · rw [if_pos h4] at hbc
            exact absurd hbc (by simp)
          · rw [if_neg h4] at hbc
            have hbc1 : b1 = c1 :=
              ha.conn _ _ (Bool.eq_false_iff.mpr h3) (Bool.eq_false_iff.mpr h4)
            rw [hab1, hbc1]
            rw [if_neg (by simp [isSTO_irrefl ha]), if_neg (by simp [isSTO_irrefl ha])]
            exact hb.trans _ _ _ hab hbc
  · rintro ⟨a1, a2⟩ ⟨b1, b2⟩ h1 h2
    simp only [lexLtB] at h1 h2
    by_cases ha1 : la a1 b1 = true
    · rw [if_pos ha1] at h1
      exact absurd h1 (by simp)
    · rw [if_neg ha1] at h1
      by_cases ha2 : la b1 a1 = true
      · rw [if_pos ha2] at h2
        exact absurd h2 (by simp)
      · rw [if_neg ha2] at h1
        rw [if_neg ha2, if_neg ha1] at h2
        have he1 : a1 = b1 :=
          ha.conn _ _ (Bool.eq_false_iff.mpr ha1) (Bool.eq_false_iff.mpr ha2)
        have he2 : a2 = b2 := hb.conn _ _ h1 h2
        rw [he1, he2]

/-- Sorting relation induced by a key function and a strict comparator:
`a` may precede `b` unless `b`'s key is strictly smaller. -/
def keyLE (lt : κ → κ → Bool) (k : α → κ) (a b : α) : Prop :=
  lt (k b) (k a) = false

instance (lt : κ → κ → Bool) (k : α → κ) : DecidableRel (keyLE lt k) := fun a b => by
  unfold keyLE
  infer_instance

theorem keyLE_total {lt : κ → κ → Bool} {k : α → κ} (h : IsSTO lt) (a b : α) :
    keyLE lt k a b ∨ keyLE lt k b a := by
  unfold keyLE
  cases hx : lt (k b) (k a)
  · exact Or.inl rfl
  · exact Or.inr (h.asymm _ _ hx)

theorem keyLE_trans {lt : κ → κ → Bool} {k : α → κ} (h : IsSTO lt) (a b c : α)
    (hab : keyLE lt k a b) (hbc : keyLE lt k b c) : keyLE lt k a c := by
  unfold keyLE at hab hbc ⊢
  cases hx : lt (k c) (k a)
  · rfl
  · by_cases hy : lt (k a) (k b) = true
    · rw [h.trans _ _ _ hx hy] at hbc
      exact hbc
    · have he : k a = k b := h.conn _ _ (Bool.eq_false_iff.mpr hy) hab
      rw [he] at hx
      rw [hx] at hbc
      exact hbc

/-! ## Deduplication (pandas `drop_duplicates`, and `_dedupe_pairs`)

`dedupByFirst key` keeps the first row carrying each key (`keep='first'`, the
pandas default, and the behavior of `fetch_flows._dedupe_pairs`);
`dedupByLast key` keeps the last (`keep='last'`), preserving the relative
order of the survivors, which is what pandas does. -/

def dedupByFirstAux (key : α → κ) [DecidableEq κ] (seen : List κ) : List α → List α
  | [] => []
  | x :: xs =>
    if key x ∈ seen then dedupByFirstAux key seen xs
    else x :: dedupByFirstAux key (key x :: seen) xs

def dedupByFirst (key : α → κ) [DecidableEq κ] (l : List α) : List α :=
  dedupByFirstAux key [] l

def dedupByLast (key : α → κ) [DecidableEq κ] (l : List α) : List α :=
  (dedupByFirst key l.reverse).reverse

theorem dedupByFirstAux_sublist (key : α → κ) [DecidableEq κ] :
    ∀ (seen : List κ) (l : List α), List.Sublist (dedupByFirstAux key seen l) l := by
  intro seen l
  induction l generalizing seen with
  | nil => simp [dedupByFirstAux]
  | cons x xs ih =>
    simp only [dedupByFirstAux]
    by_cases hx : key x ∈ seen
    · rw [if_pos hx]
      exact (ih seen).cons x
    · rw [if_neg hx]
      exact (ih (key x :: seen)).cons₂ x

theorem dedupByFirstAux_id_mem [DecidableEq α] :
    ∀ (seen : List α) (l : List α) (x : α),
      x ∈ dedupByFirstAux id seen l ↔ x ∈ l ∧ x ∉ seen := by
  intro seen l
  induction l generalizing seen with
  | nil => simp [dedupByFirstAux]
  | cons y ys ih =>
    intro x
    simp only [dedupByFirstAux, id]
    by_cases hy : y ∈ seen
    · rw [if_pos hy, ih seen x]
      constructor
      · rintro ⟨h1, h2⟩
        exact ⟨List.mem_cons_of_mem y h1, h2⟩
      · rintro ⟨h1, h2⟩
        rcases List.mem_cons.mp h1 with h | h
        · exact absurd (h ▸ hy) h2
        · exact ⟨h, h2⟩
    · rw [if_neg hy]
      constructor
      · intro hmem
        rcases List.mem_cons.mp hmem with h | h
        · exact ⟨h ▸ List.mem_cons_self y ys, h ▸ hy⟩
        · rcases (ih (y :: seen) x).mp h with ⟨h1, h2⟩
          refine ⟨List.mem_cons_of_mem y h1, fun hc => h2 (List.mem_cons_of_mem y hc)⟩
      · rintro ⟨h1, h2⟩
        rcases List.mem_cons.mp h1 with h | h
        · exact h ▸ List.mem_cons_self y _
        · by_cases hxy : x = y
          · exact hxy ▸ List.mem_cons_self y _
          · exact List.mem_cons_of_mem y
              ((ih (y :: seen) x).mpr ⟨h, fun hc => by
                rcases List.mem_cons.mp hc with hc | hc
                · exact hxy hc
                · exact h2 hc⟩)

theorem dedupByFirstAux_id_nodup [DecidableEq α] :
    ∀ (seen : List α) (l : List α), (dedupByFirstAux id seen l).Nodup := by
  intro seen l
  induction l generalizing seen with
  | nil => simp [dedupByFirstAux]
  | cons y ys ih =>
    simp only [dedupByFirstAux, id]
    by_cases hy : y ∈ seen
    · rw [if_pos hy]
      exact ih seen
    · rw [if_neg hy]
      refine List.nodup_cons.mpr ⟨fun hc => ?_, ih (y :: seen)⟩
      exact ((dedupByFirstAux_id_mem (y :: seen) ys y).mp hc).2 (List.mem_cons_self y seen)

theorem dedupByFirst_id_spec [DecidableEq α] (l : List α) :
    (dedupByFirst id l).Nodup ∧ List.Sublist (dedupByFirst id l) l ∧
      ∀ x, x ∈ dedupByFirst id l ↔ x ∈ l := by
  refine ⟨dedupByFirstAux_id_nodup [] l, dedupByFirstAux_sublist id [] l, fun x => ?_⟩
  rw [dedupByFirst, dedupByFirstAux_id_mem [] l x]
  simp

/-! ## `Except`-valued list traversal used by the parsers -/

deriving instance DecidableEq for Except

/-- Errors a parse pass can raise: an in-band `<Reason>` turned into a
`RuntimeError`, or a `ValueError` escaping an unguarded `int(...)`. -/
inductive PErr where
  | apiError (code text : Str)
  | valueError
deriving DecidableEq

def mapME (f : α → Except ε β) : List α → Except ε (List β)
  | [] => .ok []
  | x :: xs =>
    match f x with
    | .error e => .error e
    | .ok y =>
      match mapME f xs with
      | .error e => .error e
      | .ok ys => .ok (y :: ys)

theorem mapME_ok_mem {f : α → Except ε β} {xs : List α} {ys : List β}
    (h : mapME f xs = .ok ys) {x : α} (hx : x ∈ xs) :
    ∃ y, f x = .ok y ∧ y ∈ ys := by
  induction xs generalizing ys with
  | nil => exact absurd hx (List.not_mem_nil x)
  | cons a as ih =>
    simp only [mapME] at h
    cases hfa : f a with
    | error e => rw [hfa] at h; exact absurd h (by simp)
    | ok y0 =>
      rw [hfa] at h
      cases hrest : mapME f as with
      | error e => rw [hrest] at h; exact absurd h (by simp)
      | ok ys0 =>
        rw [hrest] at h
        have hys : ys = y0 :: ys0 := (Except.ok.inj h).symm
        subst hys
        rcases List.mem_cons.mp hx with hxa | hxas
        · exact ⟨y0, hxa ▸ hfa, List.mem_cons_self y0 ys0⟩
        · rcases ih hrest hxas with ⟨y, hy1, hy2⟩
          exact ⟨y, hy1, List.mem_cons_of_mem y0 hy2⟩

/-! ## Fixed code tables -/

def PSRTYPE_MAPPINGS : List (Str × Str) :=
  [("B01".data, "Biomass".data),
   ("B02".data, "Fossil Brown coal/Lignite".data),
   ("B03".data, "Fossil Coal-derived gas".data),
   ("B04".data, "Fossil Gas".data),
   ("B05".data, "Fossil Hard coal".data),
   ("B06".data, "Fossil Oil".data),
   ("B07".data, "Fossil Oil shale".data),
   ("B08".data, "Fossil Peat".data),
   ("B09".data, "Geothermal".data),
   ("B10".data, "Hydro Pumped Storage".data),
   ("B11".data, "Hydro Run-of-river and pondage".data),
   ("B12".data, "Hydro Water Reservoir".data),
   ("B13".data, "Marine".data),
   ("B14".data, "Nuclear".data),
   ("B15".data, "Other renewable".data),
   ("B16".data, "Solar".data),
   ("B17".data, "Waste".data),
   ("B18".data, "Wind Offshore".data),
   ("B19".data, "Wind Onshore".data),
   ("B20".data, "Other".data)]

/-- `PSRTYPE_MAPPINGS.get(psr_code, psr_code or None)`. -/
def psrNameOf (code : Str) : Option Str :=
  match PSRTYPE_MAPPINGS.lookup code with
  | some n => some n
  | none => if code ≠ [] then some code else none

/-- Python `x or None` for strings. -/
def strOrNone (s : Str) : Option Str :=
  if s ≠ [] then some s else none

/-! ## A75 parser (`EntsoeGenerationByType._parse_a75`)

Fields hold what the parser's `findtext` calls read:
`A75Point.posText` is the `<position>` text (`none` = element absent, so the
default `"1"` applies); `A75Point.quantity` is the `float(...)`-parsed
`<quantity>` (`none` = absent or unparsable, stored as `None`);
`A75Period.start` is the parsed `timeInterval/start` instant (`none` = absent
or empty, triggering the document-level fallback); string fields default to
`""` exactly as `findtext(default=...)` does. -/

structure GenRow where
  ts : Int
  zone : Str
  psrType : Option Str
  psrName : Option Str
  value : Option Int
  resolution : Str
deriving DecidableEq

structure A75Point where
  posText : Option Str
  quantity : Option Int
deriving DecidableEq

structure A75Period where
  start : Option Int
  resolution : Option Str
  points : List A75Point
deriving DecidableEq

structure A75Series where
  psrType : Str
  resolution : Str
  periods : List A75Period
deriving DecidableEq

structure A75Doc where
  reasons : List (Str × Str)
  rootStart : Option Int
  series : List A75Series
deriving DecidableEq

/-- `resolution = period.findtext("gl:resolution", default=ts_resolution) or "PT60M"`. -/
def a75_effective_resolution (tsRes : Str) (p : A75Period) : Str :=
  if p.resolution.getD tsRes = [] then "PT60M".data else p.resolution.getD tsRes

/-- `step_minutes = _iso8601_duration_to_minutes(resolution) or 60` (the codec
may raise `ValueError` on a malformed numeric field). -/
def a75_step_minutes (tsRes : Str) (p : A75Period) : Except PErr Nat :=
  match iso8601_duration_to_minutes (a75_effective_resolution tsRes p) with
  | some n => .ok (if n = 0 then 60 else n)
  | none => .error .valueError

/-- `pos = int(pt.findtext("gl:position", default="1"))` (unguarded), then the
row with `ts_dt = start_dt + timedelta(minutes=step_minutes * (pos - 1))`. -/
def parse_a75_point (zone : Str) (psrT psrN : Option Str) (res : Str) (startDt : Int)
    (step : Nat) (pt : A75Point) : Except PErr GenRow :=
  match pyInt (pt.posText.getD "1".data) with
  | none => .error .valueError
  | some pos =>
    .ok { ts := startDt + (step : Int) * ((pos : Int) - 1), zone := zone, psrType := psrT,
          psrName := psrN, value := pt.quantity, resolution := res }

/-- One `<Period>`: skipped when no start instant is available (period-level
`timeInterval/start`, else the document-level fallback). -/
def parse_a75_period (zone : Str) (psrT psrN : Option Str) (tsRes : Str)
    (rootStart : Option Int) (p : A75Period) : Except PErr (List GenRow) :=
  match p.start <|> rootStart with
  | none => .ok []
  | some startDt =>
    match a75_step_minutes tsRes p with
    | .error e => .error e
    | .ok step =>
      mapME (parse_a75_point zone psrT psrN (a75_effective_resolution tsRes p) startDt step)
        p.points

def parse_a75_series (zone : Str) (rootStart : Option Int) (s : A75Series) :
    Except PErr (List GenRow) :=
  match mapME (parse_a75_period zone (strOrNone s.psrType) (psrNameOf s.psrType)
      s.resolution rootStart) s.periods with
  | .error e => .error e
  | .ok pss => .ok pss.flatten

/-- `rows.sort(key=lambda r: (r["datetime_utc"], r.get("psr_type") or ""))`. -/
abbrev a75SortLE : GenRow → GenRow → Prop :=
  keyLE (lexLtB intLtB strLtB) (fun r => (r.ts, r.psrType.getD []))

instance : IsTotal GenRow a75SortLE :=
  ⟨fun a b => keyLE_total (lexLtB_sto intLtB_sto strLtB_sto) a b⟩

instance : IsTrans GenRow a75SortLE :=
  ⟨fun a b c => keyLE_trans (lexLtB_sto intLtB_sto strLtB_sto) a b c⟩

/-- `for reason in root.findall(".//gl:Reason"): ... raise RuntimeError(...)`:
the A75/A68/A44 reason loops raise on the *first* `<Reason>` element found,
whatever its content. -/
def check_reasons_strict : List (Str × Str) → Except PErr Unit
  | [] => .ok ()
  | (c, t) :: _ => .error (.apiError (pyStrip c) (pyStrip t))

def parse_a75 (doc : A75Doc) (zone : Str) : Except PErr (List GenRow) :=
  match check_reasons_strict doc.reasons with
  | .error e => .error e
  | .ok _ =>
    match mapME (parse_a75_series zone doc.rootStart) doc.series with
    | .error e => .error e
    | .ok rowss => .ok (List.insertionSort a75SortLE rowss.flatten)

/-! ## A44 parser (`EntsoePrices._parse_a44`)

Contract type, currency and unit fall back series → document; the period
resolution has no series-level fallback; `int(position)` and `float(price)`
failures are caught (`pos = 1`, `price = None`). -/

structure PriceRow where
  ts : Int
  zone : Str
  price : Option Rat
  currency : Option Str
  unit : Option Str
  resolution : Str
  contract : Option Str
deriving DecidableEq

structure A44Point where
  posText : Option Str
  price : Option Rat
deriving DecidableEq

structure A44Period where
  start : Option Int
  resolution : Option Str
  points : List A44Point
deriving DecidableEq

structure A44Series where
  contract : Option Str
  currency : Option Str
  unit : Option Str
  periods : List A44Period
deriving DecidableEq

structure A44Doc where
  reasons : List (Str × Str)
  contract : Option Str
  currency : Option Str
  unit : Option Str
  rootStart : Option Int
  series : List A44Series
deriving DecidableEq

/-- `try: pos = int(pos_text) except: pos = 1`. -/
def a44_position (pt : A44Point) : Nat :=
  (pyInt (pt.posText.getD "1".data)).getD 1

/-- `step_minutes = self._iso8601_duration_to_minutes(resolution) or 60`. -/
def a44_step_minutes (resolution : Str) : Nat :=
  if iso8601_duration_to_minutes_prices resolution = 0 then 60
  else iso8601_duration_to_minutes_prices resolution

def parse_a44_point (zone : Str) (contract currency unit : Option Str) (resolution : Str)
    (startDt : Int) (pt : A44Point) : PriceRow :=
  { ts := startDt + (a44_step_minutes resolution : Int) * ((a44_position pt : Int) - 1),
    zone := zone, price := pt.price, currency := currency, unit := unit,
    resolution := if resolution = [] then "PT60M".data else resolution,
    contract := contract }

def parse_a44_period (zone : Str) (contract currency unit : Option Str)
    (rootStart : Option Int) (p : A44Period) : List PriceRow :=
  match p.start <|> rootStart with
  | none => []
  | some startDt =>
    p.points.map (parse_a44_point zone contract currency unit (p.resolution.getD []) startDt)

def parse_a44_series (zone : Str) (docContract docCurrency docUnit : Str)
    (rootStart : Option Int) (s : A44Series) : List PriceRow :=
  (s.periods.map (parse_a44_period zone
      (strOrNone (pyStrip (s.contract.getD docContract)))
      (strOrNone (pyStrip (s.currency.getD docCurrency)))
      (strOrNone (pyStrip (s.unit.getD docUnit)))
      rootStart)).flatten

/-- `rows.sort(key=lambda r: (r["datetime_utc"], r.get("zone") or ""))`. -/
abbrev a44SortLE : PriceRow → PriceRow → Prop :=
  keyLE (lexLtB intLtB strLtB) (fun r => (r.ts, r.zone))

instance : IsTotal PriceRow a44SortLE :=
  ⟨fun a b => keyLE_total (lexLtB_sto intLtB_sto strLtB_sto) a b⟩

instance : IsTrans PriceRow a44SortLE :=
  ⟨fun a b c => keyLE_trans (lexLtB_sto intLtB_sto strLtB_sto) a b c⟩

def parse_a44 (doc : A44Doc) (zone : Str) : Except PErr (List PriceRow) :=
  match check_reasons_strict doc.reasons with
  | .error e => .error e
  | .ok _ =>
    .ok (List.insertionSort a44SortLE
      ((doc.series.map (parse_a44_series zone
          (pyStrip (doc.contract.getD [])) (pyStrip (doc.currency.getD []))
          (pyStrip (doc.unit.getD [])) doc.rootStart)).flatten))

/-! ## A69 parser (`generation_res._parse_a69`)

`generation_res._iso_duration_to_minutes` is character-for-character the
generation-class codec.  A point is skipped when its quantity is absent or
either numeric parse fails; a series is skipped when a non-empty PSR filter
does not contain its PSR code. -/

def iso_duration_to_minutes_res (duration : Str) : Option Nat :=
  iso8601_duration_to_minutes duration

structure A69Row where
  ts : Int
  zone : Str
  psrType : Option Str
  psrName : Option Str
  value : Int
  unit : Option Str
  resolution : Str
deriving DecidableEq

structure A69Point where
  posText : Option Str
  quantity : Option Int
deriving DecidableEq

structure A69Period where
  start : Option Int
  resolution : Option Str
  points : List A69Point
deriving DecidableEq

structure A69Series where
  psrType : Str
  unit : Str
  zone : Str
  resolution : Str
  periods : List A69Period
deriving DecidableEq

structure A69Doc where
  reasons : List (Str × Str)
  rootStart : Option Int
  series : List A69Series
deriving DecidableEq

/-- The A69 reason loop raises only when a non-empty code or text is found. -/
def a69_check_reasons : List (Str × Str) → Except PErr Unit
  | [] => .ok ()
  | (c, t) :: rest =>
    if pyStrip c ≠ [] ∨ pyStrip t ≠ [] then .error (.apiError (pyStrip c) (pyStrip t))
    else a69_check_reasons rest

/-- `resolution = (resolution or ts_resolution or "PT60M").strip()`. -/
def a69_effective_resolution (tsRes : Str) (p : A69Period) : Str :=
  pyStrip (if p.resolution.getD tsRes ≠ [] then p.resolution.getD tsRes
    else if tsRes ≠ [] then tsRes else "PT60M".data)

def a69_step_minutes (tsRes : Str) (p : A69Period) : Except PErr Nat :=
  match iso_duration_to_minutes_res (a69_effective_resolution tsRes p) with
  | some n => .ok (if n = 0 then 60 else n)
  | none => .error .valueError

/-- `pos = int(pos_text or "1"); qty = float(qty_text)` inside a
`try/except (ValueError, TypeError): continue`. -/
def a69_point_parsed (pt : A69Point) : Option (Nat × Int) :=
  match pt.quantity with
  | none => none
  | some q =>
    match pyInt (if pt.posText.getD "1".data = [] then "1".data else pt.posText.getD "1".data) with
    | none => none
    | some pos => some (pos, q)

def parse_a69_period (zone : Str) (psrT psrN unit : Option Str) (tsRes : Str)
    (rootStart : Option Int) (p : A69Period) : Except PErr (List A69Row) :=
  match p.start <|> rootStart with
  | none => .ok []
  | some startDt =>
    match a69_step_minutes tsRes p with
    | .error e => .error e
    | .ok step =>
      .ok (p.points.filterMap (fun pt =>
        match a69_point_parsed pt with
        | none => none
        | some (pos, q) =>
          some { ts := startDt + (step : Int) * ((pos : Int) - 1), zone := zone,
                 psrType := psrT, psrName := psrN, value := q, unit := unit,
                 resolution := a69_effective_resolution tsRes p }))

def parse_a69_series (zoneEic : Str) (allowed : List Str) (rootStart : Option Int)
    (s : A69Series) : Except PErr (List A69Row) :=
  if allowed ≠ [] ∧ pyStrip s.psrType ∉ allowed then .ok []
  else
    match mapME (parse_a69_period
        (pyStrip (if s.zone ≠ [] then s.zone else if zoneEic ≠ [] then zoneEic else []))
        (strOrNone (pyStrip s.psrType)) (psrNameOf (pyStrip s.psrType))
        (strOrNone s.unit) s.resolution rootStart) s.periods with
    | .error e => .error e
    | .ok pss => .ok pss.flatten

/-- `records.sort(key=lambda r: (r["zone"] or "", r["psr_type"] or "", r["datetime_utc"]))`:
zone-major, then PSR, then timestamp. -/
abbrev a69SortLE : A69Row → A69Row → Prop :=
  keyLE (lexLtB strLtB (lexLtB strLtB intLtB)) (fun r => (r.zone, r.psrType.getD [], r.ts))

instance : IsTotal A69Row a69SortLE :=
  ⟨fun a b => keyLE_total (lexLtB_sto strLtB_sto (lexLtB_sto strLtB_sto intLtB_sto)) a b⟩

instance : IsTrans A69Row a69SortLE :=
  ⟨fun a b c => keyLE_trans (lexLtB_sto strLtB_sto (lexLtB_sto strLtB_sto intLtB_sto)) a b c⟩

def parse_a69 (doc : A69Doc) (zoneEic : Str) (allowed : List Str) :
    Except PErr (List A69Row) :=
  match a69_check_reasons doc.reasons with
  | .error e => .error e
  | .ok _ =>
    match mapME (parse_a69_series zoneEic allowed doc.rootStart) doc.series with
    | .error e => .error e
    | .ok rowss => .ok (List.insertionSort a69SortLE rowss.flatten)

/-! ## A11 parser (`EntsoePhysicalFlows._parse_a11`)

This parser manipulates `ElementTree` elements through Python's `or`, whose
truth test on an element is "has child elements" (a leaf like
`<code>999</code>` is *falsy*).  `XElem` carries the element text and a
has-children flag; `pyOrElem` is `a or b` on optional elements. -/

structure XElem where
  text : Option Str
  hasChildren : Bool
deriving DecidableEq

/-- Python `a or b` where `a`, `b` are `Element`-or-`None`: an element is
truthy iff it has child elements. -/
def pyOrElem (a b : Option XElem) : Option XElem :=
  match a with
  | some e => if e.hasChildren then some e else b
  | none => b

/-- `code = (code_el.text or "").strip() if code_el is not None else ""`. -/
def xElemText (e : Option XElem) : Str :=
  match e with
  | some el => pyStrip (el.text.getD [])
  | none => []

structure A11Reason where
  codeEl : Option XElem
  codeCapEl : Option XElem
  textEl : Option XElem
  textCapEl : Option XElem
deriving DecidableEq

/-- `code_el = reason.find("ns:code") or reason.find("ns:Code")` (and the same
for text); raise only when a non-empty code or text was extracted. -/
def a11_check_reasons : List A11Reason → Except PErr Unit
  | [] => .ok ()
  | r :: rest =>
    if xElemText (pyOrElem r.codeEl r.codeCapEl) ≠ [] ∨
        xElemText (pyOrElem r.textEl r.textCapEl) ≠ [] then
      .error (.apiError (xElemText (pyOrElem r.codeEl r.codeCapEl))
        (xElemText (pyOrElem r.textEl r.textCapEl)))
    else a11_check_reasons rest

structure A11Point where
  posText : Option Str
  quantity : Option Int
deriving DecidableEq

structure A11Period where
  start : Option Int
  resEl : Option XElem
  points : List A11Point
deriving DecidableEq

structure A11Series where
  outDomainEl : Option XElem
  outBZEl : Option XElem
  inDomainEl : Option XElem
  inBZEl : Option XElem
  resEl : Option XElem
  periods : List A11Period
deriving DecidableEq

structure A11Doc where
  reasons : List A11Reason
  series : List A11Series
deriving DecidableEq

structure FlowRow where
  ts : Int
  outDomain : Str
  inDomain : Str
  quantity : Int
  resolution : Str
deriving DecidableEq

/-- `out_eic = out_el.text.strip() if out_el is not None and out_el.text else fallback`. -/
def a11_domain_text (el : Option XElem) (fallback : Str) : Str :=
  match el with
  | some e =>
    match e.text with
    | some t => if t ≠ [] then pyStrip t else fallback
    | none => fallback
  | none => fallback

/-- `res_el = (period.find("ns:resolution") or s.find("ns:resolution"))`, then,
when that `or` produced `None`, the local-name scan over `period.iter()`
followed by `s.iter()` (which finds the period-level element first). -/
def a11_res_el (s : A11Series) (p : A11Period) : Option XElem :=
  match pyOrElem p.resEl s.resEl with
  | some e => some e
  | none => p.resEl <|> s.resEl

/-- `res_iso = res_el.text.strip() if res_el is not None and res_el.text else "PT15M"`. -/
def a11_res_iso (s : A11Series) (p : A11Period) : Str :=
  match a11_res_el s p with
  | some e =>
    match e.text with
    | some t => if t ≠ [] then pyStrip t else "PT15M".data
    | none => "PT15M".data
  | none => "PT15M".data

/-- `step_min = _iso8601_duration_to_minutes(res_iso) or 15`. -/
def a11_step_min (s : A11Series) (p : A11Period) : Nat :=
  if iso8601_duration_to_minutes_flows (a11_res_iso s p) = 0 then 15
  else iso8601_duration_to_minutes_flows (a11_res_iso s p)

/-- `pos = int(pos_el.text) if (pos_el is not None and pos_el.text) else 1`,
with the `int` failure caught to `pos = 1`. -/
def a11_position (pt : A11Point) : Nat :=
  match pt.posText with
  | some t => if t ≠ [] then (pyInt t).getD 1 else 1
  | none => 1

/-- Points with an absent or unparsable `<quantity>` are skipped;
`ts = base + timedelta(minutes=(pos - 1) * step_min)`. -/
def parse_a11_period (outE inE : Str) (s : A11Series) (p : A11Period) : List FlowRow :=
  match p.start with
  | none => []
  | some base =>
    p.points.filterMap (fun pt =>
      match pt.quantity with
      | none => none
      | some q =>
        some { ts := base + ((a11_position pt : Int) - 1) * (a11_step_min s p : Int),
               outDomain := outE, inDomain := inE, quantity := q,
               resolution := a11_res_iso s p })

def parse_a11_series (outFb inFb : Str) (s : A11Series) : List FlowRow :=
  (s.periods.map (parse_a11_period
      (a11_domain_text (pyOrElem s.outDomainEl s.outBZEl) outFb)
      (a11_domain_text (pyOrElem s.inDomainEl s.inBZEl) inFb) s)).flatten

/-- `records.sort(key=lambda r: (r["datetime_utc"], r["out_domain_eic"], r["in_domain_eic"]))`. -/
abbrev a11SortLE : FlowRow → FlowRow → Prop :=
  keyLE (lexLtB intLtB (lexLtB strLtB strLtB)) (fun r => (r.ts, r.outDomain, r.inDomain))

instance : IsTotal FlowRow a11SortLE :=
  ⟨fun a b => keyLE_total (lexLtB_sto intLtB_sto (lexLtB_sto strLtB_sto strLtB_sto)) a b⟩

instance : IsTrans FlowRow a11SortLE :=
  ⟨fun a b c => keyLE_trans (lexLtB_sto intLtB_sto (lexLtB_sto strLtB_sto strLtB_sto)) a b c⟩

def parse_a11 (doc : A11Doc) (outFb inFb : Str) : Except PErr (List FlowRow) :=
  match a11_check_reasons doc.reasons with
  | .error e => .error e
  | .ok _ =>
    .ok (List.insertionSort a11SortLE ((doc.series.map (parse_a11_series outFb inFb)).flatten))

/-! ## Range queries

`EntsoeGenerationByType.get_range`: guard `start >= end`, chunk into ≤365-day
sub-windows, one fetch per chunk (abstracted as the `fetch` oracle =
`_fetch_chunk`, i.e. request + parse), concatenate,
`drop_duplicates(["datetime_utc","zone","psr_type"])` (keep-first),
`sort_values(["datetime_utc","psr_type"])`, clip to `[start, end)`.  The
second component counts network requests (one per chunk).

`EntsoePrices.get_prices_range` has *no* degenerate-window guard: its
fetch-parse loop always runs at least one iteration.  With `paginate=False`
the loop body always breaks in its first iteration, so fuel 1 is exact; the
paginated mode is given a large fixed fuel (the platform's pagination is
finite).  Post-processing: clip to the window, `sort_values(["datetime_utc",
"zone"])`, `drop_duplicates(["datetime_utc","zone","contract_type"],
keep="last")`.

`EntsoePhysicalFlows.get_range`: guard, a single fetch + parse (the `fetched`
argument), keep-first dedup on `(ts, out, in)`, sort, clip. -/

def genRowKey (r : GenRow) : Int × Str × Option Str := (r.ts, r.zone, r.psrType)

/-- `sort_values(["datetime_utc","psr_type"])`; pandas puts null keys last. -/
abbrev genSortValuesLE : GenRow → GenRow → Prop :=
  keyLE (lexLtB intLtB optStrNaLastLtB) (fun r => (r.ts, r.psrType))

instance : IsTotal GenRow genSortValuesLE :=
  ⟨fun a b => keyLE_total (lexLtB_sto intLtB_sto optStrNaLastLtB_sto) a b⟩

instance : IsTrans GenRow genSortValuesLE :=
  ⟨fun a b c => keyLE_trans (lexLtB_sto intLtB_sto optStrNaLastLtB_sto) a b c⟩

def get_range (fetch : Int × Int → List GenRow) (start e : Int) : List GenRow × Nat :=
  if start ≥ e then ([], 0)
  else
    let chunks := chunk_datetimes start e maxSpanMinutes
    let rows := (chunks.map fetch).flatten
    if rows = [] then ([], chunks.length)
    else
      ((List.insertionSort genSortValuesLE (dedupByFirst genRowKey rows)).filter
          (fun r => decide (start ≤ r.ts ∧ r.ts < e)),
        chunks.length)

def priceRowKey (r : PriceRow) : Int × Str × Option Str := (r.ts, r.zone, r.contract)

abbrev pricesSortValuesLE : PriceRow → PriceRow → Prop :=
  keyLE (lexLtB intLtB strLtB) (fun r => (r.ts, r.zone))

instance : IsTotal PriceRow pricesSortValuesLE :=
  ⟨fun a b => keyLE_total (lexLtB_sto intLtB_sto strLtB_sto) a b⟩

instance : IsTrans PriceRow pricesSortValuesLE :=
  ⟨fun a b c => keyLE_trans (lexLtB_sto intLtB_sto strLtB_sto) a b c⟩

/-- The `while True:` fetch loop of `get_prices_range`; `pages offset` is the
parsed record list of the page at that offset (request + `_parse_a44`), and
the `Nat` component counts requests. -/
def pricesLoop (pages : Nat → List PriceRow) (paginate : Bool) :
    Nat → Nat → List PriceRow → Nat → List PriceRow × Nat
  | 0, _, acc, calls => (acc, calls)
  | fuel + 1, offset, acc, calls =>
    if pages offset = [] then (acc, calls + 1)
    else if paginate = false then (acc ++ pages offset, calls + 1)
    else pricesLoop pages paginate fuel (offset + 100) (acc ++ pages offset) (calls + 1)

/-- Fuel for the `while True:` page loop: with `paginate=False` the body always
breaks in its first iteration, so fuel 1 is exact; the paginated mode gets a
large fixed budget (the platform's pagination is finite). -/
def pricesFuel (paginate : Bool) : Nat :=
  if paginate then 10000 else 1

def get_prices_range (pages : Nat → List PriceRow) (paginate : Bool) (start e : Int) :
    List PriceRow × Nat :=
  let fetched := pricesLoop pages paginate (pricesFuel paginate) 0 [] 0
  if fetched.1 = [] then ([], fetched.2)
  else
    (dedupByLast priceRowKey
        (List.insertionSort pricesSortValuesLE
          (fetched.1.filter (fun r => decide (start ≤ r.ts ∧ r.ts < e)))),
      fetched.2)

def flowRowKey (r : FlowRow) : Int × Str × Str := (r.ts, r.outDomain, r.inDomain)

def flows_get_range (fetched : List FlowRow) (start e : Int) : List FlowRow × Nat :=
  if start ≥ e then ([], 0)
  else if fetched = [] then ([], 1)
  else
    ((List.insertionSort a11SortLE (dedupByFirst flowRowKey fetched)).filter
        (fun r => decide (start ≤ r.ts ∧ r.ts < e)),
      1)

/-! ## Country-level aggregation (`query_all_countries`)

`EntsoeGenerationByType.query_all_countries(aggregate_by_country=True)`:
`full.groupby(["country","datetime_utc","psr_type","psr_name"])
["generation_MW"].sum(numeric_only=True)`.  pandas groupby drops rows whose
*key* contains a null, excludes null *values* from the sum, and an all-null
group sums to `0.0` (`min_count=0`) — a number, not a null.  Group order is
modelled by first occurrence (the source re-sorts afterwards; no claim
concerns group order).

`EntsoePrices.query_all_countries(aggregate_by_country=True)`:
`groupby(["country","datetime_utc","contract_type"]).agg(price=("price",
"mean"), currency=("currency","first"), unit=("unit","first"))`: the mean of
an all-null group is null (group present), and "first" takes the first
non-null entry. -/

structure CGenRow where
  country : Str
  zone : Str
  ts : Int
  psrType : Option Str
  psrName : Option Str
  value : Option Int
deriving DecidableEq

def genAggKey (r : CGenRow) : Option (Str × Int × Str × Str) :=
  match r.psrType, r.psrName with
  | some p, some n => some (r.country, r.ts, p, n)
  | _, _ => none

def gen_aggregate_by_country (rows : List CGenRow) :
    List ((Str × Int × Str × Str) × Option Int) :=
  (dedupByFirst id (rows.filterMap genAggKey)).map (fun k =>
    (k, some (((rows.filter (fun r => decide (genAggKey r = some k))).filterMap
      (fun r => r.value)).sum)))

structure CPriceRow where
  country : Str
  ts : Int
  contract : Option Str
  price : Option Rat
  currency : Option Str
  unit : Option Str
deriving DecidableEq

def priceAggKey (r : CPriceRow) : Option (Str × Int × Str) :=
  match r.contract with
  | some c => some (r.country, r.ts, c)
  | none => none

def pandasMean (vals : List Rat) : Option Rat :=
  if vals = [] then none else some (vals.sum / (vals.length : Rat))

def prices_aggregate_by_country (rows : List CPriceRow) :
    List ((Str × Int × Str) × Option Rat × Option Str × Option Str) :=
  (dedupByFirst id (rows.filterMap priceAggKey)).map (fun k =>
    let grp := rows.filter (fun r => decide (priceAggKey r = some k))
    (k, pandasMean (grp.filterMap (fun r => r.price)),
      (grp.filterMap (fun r => r.currency)).head?,
      (grp.filterMap (fun r => r.unit)).head?))

/-! ## Neighbor graph builder (`fetch_flows.py`)

`country_to_eics` values are normalized to lists (`_iter_eics` accepts either
a scalar or a list; the model takes the list form).  Python `set`s
(`set(neighbors_map.get(src, set()))`, the skipped-neighbor accumulator) are
modelled as sorted duplicate-free lists — `sorted(neigh)` is exactly
`sortedUnique`, and the skipped set is only ever reported sorted. -/

def iter_eics (vals : List Str) : List Str :=
  vals.filterMap (fun v => if v ≠ [] then (if pyStrip v ≠ [] then some (pyStrip v) else none)
    else none)

abbrev strPLE : Str → Str → Prop := keyLE strLtB id

instance : IsTotal Str strPLE := ⟨fun a b => keyLE_total strLtB_sto a b⟩

instance : IsTrans Str strPLE := ⟨fun a b c => keyLE_trans strLtB_sto a b c⟩

/-- `sorted(<a set of strings>)`. -/
def sortedUnique (l : List Str) : List Str :=
  List.insertionSort strPLE (dedupByFirst id l)

def mapHasKey (m : List (Str × List Str)) (k : Str) : Bool :=
  (m.lookup k).isSome

/-- `_dedupe_pairs`: drop exact duplicate EIC pairs, preserving order. -/
def dedupe_pairs (l : List (Str × Str)) : List (Str × Str) :=
  dedupByFirst id l

/-- `_build_neighbor_iso_edges`, one `src` at a time.  Returns
`(edges, missing_neighbor_map, skipped_neighbors_no_eic (raw), counts)`. -/
def build_neighbor_edges_aux (countryToEics neighborsMap : List (Str × List Str)) :
    List Str → List (Str × Str) × List Str × List Str × List (Str × Nat)
  | [] => ([], [], [], [])
  | src :: rest =>
    let tail := build_neighbor_edges_aux countryToEics neighborsMap rest
    let neigh := sortedUnique ((neighborsMap.lookup src).getD [])
    if neigh = [] then
      (tail.1, src :: tail.2.1, tail.2.2.1, (src, 0) :: tail.2.2.2)
    else
      let valid := neigh.filter (fun n => mapHasKey countryToEics n && n ≠ src)
      (valid.map (fun n => (src, n)) ++ valid.map (fun n => (n, src)) ++ tail.1,
        tail.2.1,
        neigh.filter (fun n => !mapHasKey countryToEics n) ++ tail.2.2.1,
        (src, valid.length) :: tail.2.2.2)

def build_neighbor_iso_edges (isoList : List Str)
    (countryToEics neighborsMap : List (Str × List Str)) :
    List (Str × Str) × List Str × List Str × List (Str × Nat) :=
  let r := build_neighbor_edges_aux countryToEics neighborsMap isoList
  (r.1, r.2.1, sortedUnique r.2.2.1, r.2.2.2)

/-- `_expand_iso_pairs_to_eic_pairs`: the zone cross product per directed
country edge, then exact order-preserving deduplication. -/
def expand_iso_pairs_to_eic_pairs (edges : List (Str × Str))
    (countryToEics : List (Str × List Str)) : List (Str × Str) :=
  dedupe_pairs ((edges.map (fun oi =>
    (iter_eics ((countryToEics.lookup oi.1).getD [])).map (fun o =>
      (iter_eics ((countryToEics.lookup oi.2).getD [])).map (fun i => (o, i))))).flatten.flatten)

/-! ## Parser lemmas -/

theorem parse_a75_point_mem {doc : A75Doc} {zone : Str} {rows : List GenRow}
    {s : A75Series} {p : A75Period} {pt : A75Point} {S : Int} {m pos : Nat}
    (hok : parse_a75 doc zone = .ok rows) (hs : s ∈ doc.series) (hp : p ∈ s.periods)
    (hpt : pt ∈ p.points) (hstart : (p.start <|> doc.rootStart) = some S)
    (hstep : a75_step_minutes s.resolution p = .ok m)
    (hpos : pyInt (pt.posText.getD "1".data) = some pos) :
    ({ ts := S + (m : Int) * ((pos : Int) - 1), zone := zone, psrType := strOrNone s.psrType,
       psrName := psrNameOf s.psrType, value := pt.quantity,
       resolution := a75_effective_resolution s.resolution p } : GenRow) ∈ rows := by
  unfold parse_a75 at hok
  split at hok
  · exact absurd hok (by simp)
  · split at hok
    · exact absurd hok (by simp)
    next rowss heq =>
      have hrows := Except.ok.inj hok
      obtain ⟨rls, hser, hmem1⟩ := mapME_ok_mem heq hs
      unfold parse_a75_series at hser
      split at hser
      · exact absurd hser (by simp)
      next pss heq2 =>
        have hrls := Except.ok.inj hser
        obtain ⟨rlp, hper, hmem2⟩ := mapME_ok_mem heq2 hp
        unfold parse_a75_period at hper
        split at hper
        next heqS => rw [hstart] at heqS; exact absurd heqS (by simp)
        next startDt heqS =>
          rw [hstart] at heqS
          have hSd := Option.some.inj heqS
          subst hSd
          split at hper
          next heq3 => rw [hstep] at heq3; exact absurd heq3 (by simp)
          next step heq3 =>
            rw [hstep] at heq3
            have hstepEq := Except.ok.inj heq3
            subst hstepEq
            obtain ⟨r, hpointOk, hmem3⟩ := mapME_ok_mem hper hpt
            unfold parse_a75_point at hpointOk
            rw [hpos] at hpointOk
            have hr := Except.ok.inj hpointOk
            rw [← hrows]
            refine (List.perm_insertionSort a75SortLE rowss.flatten).mem_iff.mpr ?_
            refine List.mem_flatten.mpr ⟨rls, hmem1, ?_⟩
            rw [← hrls]
            refine List.mem_flatten.mpr ⟨rlp, hmem2, ?_⟩
            rw [← hr] at hmem3
            exact hmem3

theorem parse_a75_sorted {doc : A75Doc} {zone : Str} {rows : List GenRow}
    (hok : parse_a75 doc zone = .ok rows) : List.Sorted a75SortLE rows := by
  unfold parse_a75 at hok
  split at hok
  · exact absurd hok (by simp)
  · split at hok
    · exact absurd hok (by simp)
    · rw [← Except.ok.inj hok]
      exact List.sorted_insertionSort a75SortLE _

theorem parse_a44_sorted {doc : A44Doc} {zone : Str} {rows : List PriceRow}
    (hok : parse_a44 doc zone = .ok rows) : List.Sorted a44SortLE rows := by
  unfold parse_a44 at hok
  split at hok
  · exact absurd hok (by simp)
  · rw [← Except.ok.inj hok]
    exact List.sorted_insertionSort a44SortLE _

theorem parse_a69_sorted {doc : A69Doc} {zoneEic : Str} {allowed : List Str}
    {rows : List A69Row} (hok : parse_a69 doc zoneEic allowed = .ok rows) :
    List.Sorted a69SortLE rows := by
  unfold parse_a69 at hok
  split at hok
  · exact absurd hok (by simp)
  · split at hok
    · exact absurd hok (by simp)
    · rw [← Except.ok.inj hok]
      exact List.sorted_insertionSort a69SortLE _

theorem parse_a11_sorted {doc : A11Doc} {outFb inFb : Str} {rows : List FlowRow}
    (hok : parse_a11 doc outFb inFb = .ok rows) : List.Sorted a11SortLE rows := by
  unfold parse_a11 at hok
  split at hok
  · exact absurd hok (by simp)
  · rw [← Except.ok.inj hok]
    exact List.sorted_insertionSort a11SortLE _

theorem parse_a44_point_mem {doc : A44Doc} {zone : Str} {rows : List PriceRow}
    {s : A44Series} {p : A44Period} {pt : A44Point} {S : Int}
    (hok : parse_a44 doc zone = .ok rows) (hs : s ∈ doc.series) (hp : p ∈ s.periods)
    (hpt : pt ∈ p.points) (hstart : (p.start <|> doc.rootStart) = some S) :
    parse_a44_point zone
        (strOrNone (pyStrip (s.contract.getD (pyStrip (doc.contract.getD [])))))
        (strOrNone (pyStrip (s.currency.getD (pyStrip (doc.currency.getD [])))))
        (strOrNone (pyStrip (s.unit.getD (pyStrip (doc.unit.getD [])))))
        (p.resolution.getD []) S pt ∈ rows := by
  unfold parse_a44 at hok
  split at hok
  · exact absurd hok (by simp)
  · rw [← Except.ok.inj hok]
    refine (List.perm_insertionSort a44SortLE _).mem_iff.mpr ?_
    refine List.mem_flatten.mpr ⟨parse_a44_series zone (pyStrip (doc.contract.getD []))
      (pyStrip (doc.currency.getD [])) (pyStrip (doc.unit.getD [])) doc.rootStart s,
      List.mem_map_of_mem _ hs, ?_⟩
    unfold parse_a44_series
    refine List.mem_flatten.mpr ⟨parse_a44_period zone
      (strOrNone (pyStrip (s.contract.getD (pyStrip (doc.contract.getD [])))))
      (strOrNone (pyStrip (s.currency.getD (pyStrip (doc.currency.getD [])))))
      (strOrNone (pyStrip (s.unit.getD (pyStrip (doc.unit.getD [])))))
      doc.rootStart p, List.mem_map_of_mem _ hp, ?_⟩
    unfold parse_a44_period
    rw [hstart]
    exact List.mem_map_of_mem _ hpt

/-! ## Pipeline lemmas -/

theorem filter_false_nil {p : α → Bool} (hp : ∀ a, p a = false) :
    ∀ l : List α, l.filter p = [] := by
  intro l
  induction l with
  | nil => rfl
  | cons x xs ih =>
    rw [List.filter_cons, hp x]
    simpa using ih

theorem chunk_datetimes_single {s e maxLen : Int} (h1 : s < e) (h2 : e - s ≤ maxLen) :
    chunk_datetimes s e maxLen = [(s, e)] := by
  unfold chunk_datetimes
  obtain ⟨n, hn⟩ : ∃ n, (e - s).toNat = n + 1 := ⟨(e - s).toNat - 1, by omega⟩
  rw [hn]
  simp only [chunk_datetimes_aux, if_pos h1]
  rw [min_eq_right (by omega : e ≤ s + maxLen), chunk_aux_stop (lt_irrefl e)]

theorem get_range_degenerate (fetch : Int × Int → List GenRow) {s e : Int} (h : e ≤ s) :
    get_range fetch s e = ([], 0) := by
  unfold get_range
  rw [if_pos (by omega)]

theorem flows_get_range_degenerate (fetched : List FlowRow) {s e : Int} (h : e ≤ s) :
    flows_get_range fetched s e = ([], 0) := by
  unfold flows_get_range
  rw [if_pos (by omega)]

theorem prices_degenerate (pages : Nat → List PriceRow) {s e : Int} (h : e ≤ s) :
    get_prices_range pages false s e = ([], 1) := by
  have hfilter : ∀ l : List PriceRow,
      l.filter (fun r => decide (s ≤ r.ts) && decide (r.ts < e)) = [] := by
    refine filter_false_nil (fun r => ?_)
    simp only [Bool.and_eq_false_iff, decide_eq_false_iff_not]
    omega
  by_cases hp : pages 0 = []
  · simp [get_prices_range, pricesFuel, pricesLoop, hp]
  · simp [get_prices_range, pricesFuel, pricesLoop, hp, hfilter, List.insertionSort,
      dedupByLast, dedupByFirst, dedupByFirstAux]

theorem gen_dedup_keeps_first (r1 r2 : GenRow) {s e : Int} (hkey : genRowKey r1 = genRowKey r2)
    (h1 : s < e) (hspan : e - s ≤ maxSpanMinutes) (h2 : s ≤ r1.ts) (h3 : r1.ts < e) :
    get_range (fun _ => [r1, r2]) s e = ([r1], 1) := by
  have hded : dedupByFirst genRowKey [r1, r2] = [r1] := by
    simp [dedupByFirst, dedupByFirstAux, ← hkey]
  unfold get_range
  rw [if_neg (by omega), chunk_datetimes_single h1 hspan]
  simp only [List.map_cons, List.map_nil, List.flatten_cons, List.flatten_nil,
    List.append_nil, List.length_cons, List.length_nil]
  rw [if_neg (by simp)]
  rw [hded]
  simp [List.insertionSort, List.orderedInsert, List.filter_cons, h2, h3]

theorem prices_dedup_keeps_last (p1 p2 : PriceRow) {s e : Int}
    (hkey : priceRowKey p1 = priceRowKey p2) (h2 : s ≤ p1.ts) (h3 : p1.ts < e) :
    get_prices_range (fun o => if o = 0 then [p1, p2] else []) false s e = ([p2], 1) := by
  have hts : p1.ts = p2.ts := congrArg Prod.fst hkey
  have hzone : p1.zone = p2.zone := congrArg (fun k => k.2.1) hkey
  have hle : pricesSortValuesLE p1 p2 := by
    show lexLtB intLtB strLtB (p2.ts, p2.zone) (p1.ts, p1.zone) = false
    rw [← hts, ← hzone]
    exact isSTO_irrefl (lexLtB_sto intLtB_sto strLtB_sto) (p1.ts, p1.zone)
  have hded : dedupByLast priceRowKey [p1, p2] = [p2] := by
    simp [dedupByLast, dedupByFirst, dedupByFirstAux, List.reverse_cons, hkey]
  have hfil : ([p1, p2] : List PriceRow).filter (fun r => decide (s ≤ r.ts ∧ r.ts < e)) =
      [p1, p2] := by
    simp [List.filter_cons, h2, h3, ← hts]
  have hsort : List.insertionSort pricesSortValuesLE [p1, p2] = [p1, p2] := by
    simp [List.insertionSort, List.orderedInsert, if_pos hle]
  have hloop : pricesLoop (fun o => if o = 0 then [p1, p2] else []) false 1 0 [] 0 =
      ([p1, p2], 1) := by
    simp [pricesLoop]
  unfold get_prices_range
  rw [show pricesFuel false = 1 from rfl, hloop]
  rw [if_neg (by simp : ¬ (([p1, p2], 1) : List PriceRow × Nat).1 = [])]
  show (dedupByLast priceRowKey (List.insertionSort pricesSortValuesLE
    (List.filter (fun r => decide (s ≤ r.ts ∧ r.ts < e)) [p1, p2])), 1) = ([p2], 1)
  rw [hfil, hsort, hded]

/-! ## Concrete documents and inputs used by the claims -/

/-- An A75 document: one `B16` series, one period starting at
2025-01-01T00:00Z (28928160 minutes since 1970-01-01T00:00Z), resolution
`PT60M`, with one point at position 3. -/
def a75ExampleDoc : A75Doc :=
  { reasons := [],
    rootStart := none,
    series := [{ psrType := "B16".data, resolution := [],
                 periods := [{ start := some 28928160, resolution := some ("PT60M".data),
                               points := [{ posText := some ("3".data),
                                            quantity := some 500 }] }] }] }

/-- The row `a75ExampleDoc` parses to: 28928280 minutes = 2025-01-01T02:00Z. -/
def a75ExampleRow : GenRow :=
  { ts := 28928280, zone := "BG".data, psrType := some ("B16".data),
    psrName := some ("Solar".data), value := some 500, resolution := "PT60M".data }

/-- Response sequence: three rate-limited responses, then a full-bodied 200. -/
def c5Seq : Nat → HttpResp := fun i =>
  if i < 3 then { status := 429, body := [], retryAfter := none }
  else { status := 200, body := "OK".data, retryAfter := none }

/-! ## Claims -/

/-- **C1.** For every parsed document family and every period with start
instant `S` and a resolution of `m` minutes, the parser assigns the point with
1-based position `p` the absolute UTC timestamp `S + (p-1) × m` minutes
(`_parse_a75` and `_parse_a44`); in particular a period starting at
2025-01-01T00:00Z with resolution `PT60M` gives the point at position 3 the
timestamp 2025-01-01T02:00Z. -/
theorem c1_point_timestamp_expansion :
    (∀ (doc : A75Doc) (zone : Str) (rows : List GenRow) (s : A75Series) (p : A75Period)
      (pt : A75Point) (S : Int) (m pos : Nat),
      parse_a75 doc zone = .ok rows → s ∈ doc.series → p ∈ s.periods → pt ∈ p.points →
      (p.start <|> doc.rootStart) = some S → a75_step_minutes s.resolution p = .ok m →
      pyInt (pt.posText.getD "1".data) = some pos →
      ({ ts := S + (m : Int) * ((pos : Int) - 1), zone := zone,
         psrType := strOrNone s.psrType, psrName := psrNameOf s.psrType,
         value := pt.quantity,
         resolution := a75_effective_resolution s.resolution p } : GenRow) ∈ rows) ∧
    (∀ (doc : A44Doc) (zone : Str) (rows : List PriceRow) (s : A44Series) (p : A44Period)
      (pt : A44Point) (S : Int),
      parse_a44 doc zone = .ok rows → s ∈ doc.series → p ∈ s.periods → pt ∈ p.points →
      (p.start <|> doc.rootStart) = some S →
      ∃ r ∈ rows,
        r = parse_a44_point zone
            (strOrNone (pyStrip (s.contract.getD (pyStrip (doc.contract.getD [])))))
            (strOrNone (pyStrip (s.currency.getD (pyStrip (doc.currency.getD [])))))
            (strOrNone (pyStrip (s.unit.getD (pyStrip (doc.unit.getD [])))))
            (p.resolution.getD []) S pt ∧
          r.ts = S + (a44_step_minutes (p.resolution.getD []) : Int) *
            ((a44_position pt : Int) - 1)) ∧
    parse_a75 a75ExampleDoc ("BG".data) = .ok [a75ExampleRow] ∧
    a75ExampleRow.ts = 28928160 + (3 - 1) * 60 := by
  refine ⟨?_, ?_, by decide, by decide⟩
  · intro doc zone rows s p pt S m pos hok hs hp hpt hstart hstep hpos
    exact parse_a75_point_mem hok hs hp hpt hstart hstep hpos
  · intro doc zone rows s p pt S hok hs hp hpt hstart
    exact ⟨_, parse_a44_point_mem hok hs hp hpt hstart, rfl, rfl⟩

theorem c1_witness : a75ExampleRow ∈ [a75ExampleRow] := by
  have h := c1_point_timestamp_expansion.1 a75ExampleDoc ("BG".data) [a75ExampleRow]
    { psrType := "B16".data, resolution := [],
      periods := [{ start := some 28928160, resolution := some ("PT60M".data),
                    points := [{ posText := some ("3".data), quantity := some 500 }] }] }
    { start := some 28928160, resolution := some ("PT60M".data),
      points := [{ posText := some ("3".data), quantity := some 500 }] }
    { posText := some ("3".data), quantity := some 500 }
    28928160 60 3 (by decide) (by decide) (by decide) (by decide) (by decide) (by decide)
    (by decide)
  exact h

/-- **C2.** On every input of the shape `P[nD][T[nH][nM]]` both codec variants
return `days*1440 + hours*60 + minutes`; `PT15M→15`, `PT1H→60`, `P1D→1440`,
`PT1H30M→90`; an empty or non-`P` string returns 0 without raising. -/
theorem c2_duration_codec :
    (∀ dd hh mm : Option Str,
      (∀ s ∈ dd, s.all Char.isDigit = true) →
      (∀ s ∈ hh, s.all Char.isDigit = true) →
      (∀ s ∈ mm, s.all Char.isDigit = true) →
      iso8601_duration_to_minutes (durationOfParts dd hh mm) =
          some (partVal dd * 1440 + partVal hh * 60 + partVal mm) ∧
        iso8601_duration_to_minutes_prices (durationOfParts dd hh mm) =
          partVal dd * 1440 + partVal hh * 60 + partVal mm) ∧
    iso8601_duration_to_minutes ("PT15M".data) = some 15 ∧
    iso8601_duration_to_minutes ("PT1H".data) = some 60 ∧
    iso8601_duration_to_minutes ("P1D".data) = some 1440 ∧
    iso8601_duration_to_minutes ("PT1H30M".data) = some 90 ∧
    iso8601_duration_to_minutes [] = some 0 ∧
    iso8601_duration_to_minutes_prices [] = 0 ∧
    (∀ s : Str, s.head? ≠ some 'P' →
      iso8601_duration_to_minutes s = some 0 ∧ iso8601_duration_to_minutes_prices s = 0) := by
  refine ⟨codec_ofParts, by decide, by decide, by decide, by decide, by decide, by decide, ?_⟩
  intro s h
  constructor
  · unfold iso8601_duration_to_minutes
    rw [if_pos h]
  · unfold iso8601_duration_to_minutes_prices
    rw [if_pos h]

theorem c2_witness :
    iso8601_duration_to_minutes
        (durationOfParts (some ("2".data)) (some ("1".data)) (some ("30".data))) =
      some 2970 ∧
    iso8601_duration_to_minutes_prices
        (durationOfParts (some ("2".data)) (some ("1".data)) (some ("30".data))) = 2970 :=
  c2_duration_codec.1 (some ("2".data)) (some ("1".data)) (some ("30".data))
    (fun s hs => by rw [← Option.some.inj hs]; decide)
    (fun s hs => by rw [← Option.some.inj hs]; decide)
    (fun s hs => by rw [← Option.some.inj hs]; decide)

/-- **C3.** For every `start < end` the chunker covers `[start, end)` with
consecutive, gap-free, non-overlapping sub-windows each at most 365 days long,
first starting at `start`, each window's end the next one's start, and the
last ending at `end`; a range of 2.5 × the maximum span (`1314000 = 2.5 ×
525600` minutes) yields exactly 3 sub-windows. -/
theorem c3_window_chunker :
    (∀ s e : Int, s < e →
      (chunk_datetimes s e maxSpanMinutes).head?.map Prod.fst = some s ∧
      (chunk_datetimes s e maxSpanMinutes).getLast?.map Prod.snd = some e ∧
      List.Chain' (fun p q => p.2 = q.1) (chunk_datetimes s e maxSpanMinutes) ∧
      ∀ p ∈ chunk_datetimes s e maxSpanMinutes, p.1 < p.2 ∧ p.2 - p.1 ≤ maxSpanMinutes) ∧
    chunk_datetimes 0 1314000 maxSpanMinutes =
      [(0, 525600), (525600, 1051200), (1051200, 1314000)] ∧
    (chunk_datetimes 0 1314000 maxSpanMinutes).length = 3 := by
  refine ⟨?_, by decide, by decide⟩
  intro s e h
  exact chunk_datetimes_spec (by decide) h

theorem c3_witness :
    (chunk_datetimes 0 10 maxSpanMinutes).head?.map Prod.fst = some 0 ∧
    (chunk_datetimes 0 10 maxSpanMinutes).getLast?.map Prod.snd = some 10 ∧
    List.Chain' (fun p q => p.2 = q.1) (chunk_datetimes 0 10 maxSpanMinutes) ∧
    ∀ p ∈ chunk_datetimes 0 10 maxSpanMinutes, p.1 < p.2 ∧ p.2 - p.1 ≤ maxSpanMinutes :=
  c3_window_chunker.1 0 10 (by decide)

/-- **C4 (amended).** Generation and physical-flow range queries return an
empty result with zero sub-windows and zero network requests when
`start ≥ end`, and the chunker plans zero sub-windows; the prices range query
has no such guard: even with `start ≥ end` it issues its (one, unpaginated)
fetch, though the returned record list is still empty. -/
theorem c4_degenerate_window_amended :
    (∀ (fetch : Int × Int → List GenRow) (s e : Int), e ≤ s →
      get_range fetch s e = ([], 0)) ∧
    (∀ (fetched : List FlowRow) (s e : Int), e ≤ s →
      flows_get_range fetched s e = ([], 0)) ∧
    (∀ (s e maxLen : Int), e ≤ s → chunk_datetimes s e maxLen = []) ∧
    (∀ (pages : Nat → List PriceRow) (s e : Int), e ≤ s →
      get_prices_range pages false s e = ([], 1)) :=
  ⟨fun fetch _ _ h => get_range_degenerate fetch h,
   fun fetched _ _ h => flows_get_range_degenerate fetched h,
   fun _ _ _ h => chunk_datetimes_degenerate h,
   fun pages _ _ h => prices_degenerate pages h⟩

theorem c4_witness :
    get_range (fun _ => []) 5 5 = ([], 0) ∧
    get_prices_range (fun _ => []) false 7 5 = ([], 1) :=
  ⟨c4_degenerate_window_amended.1 (fun _ => []) 5 5 (by decide),
   c4_degenerate_window_amended.2.2.2 (fun _ => []) 7 5 (by decide)⟩

/-- **C4 counterexample.** The claim requires every family's range query to
make no network call on a degenerate window; `get_prices_range` (which has no
`start >= end` guard) performs one request even when `start = end`. -/
theorem c4_counterexample : get_prices_range (fun _ => []) false 5 5 = ([], 1) := by
  decide

/-- **C5 (amended).** For the capacity/generation/flows fetchers: three
retryable responses then a success give exactly four attempts returning the
successful body, each wait being the numeric `Retry-After` when present, else
the doubling backoff `1, 2, 4`; a run of retryable responses exhausts the
default budget of 5 with waits `1, 2, 4, 8, 16` and raises a terminal error;
the computed backoff is capped at 30 (visible with a budget of 7:
`1, 2, 4, 8, 16, 30, 30`).  The prices fetcher performs no retries (see the
counterexample). -/
theorem c5_retry_backoff_amended :
    (∀ resp : Nat → HttpResp,
      retryableStatus (resp 0).status = true → retryableStatus (resp 1).status = true →
      retryableStatus (resp 2).status = true → (resp 3).status = 200 →
      pyStrip (resp 3).body ≠ [] →
      request_with_retries resp 5 =
        .ok (resp 3).body 4
          [(resp 0).retryAfter.getD 1, (resp 1).retryAfter.getD 2,
            (resp 2).retryAfter.getD 4]) ∧
    (∀ resp : Nat → HttpResp, (∀ i, i < 5 → retryableStatus (resp i).status = true) →
      request_with_retries resp 5 =
        .exhausted 5
          [(resp 0).retryAfter.getD 1, (resp 1).retryAfter.getD 2,
            (resp 2).retryAfter.getD 4, (resp 3).retryAfter.getD 8,
            (resp 4).retryAfter.getD 16]) ∧
    request_with_retries (fun _ => { status := 429, body := [], retryAfter := none }) 7 =
      .exhausted 7 [1, 2, 4, 8, 16, 30, 30] := by
  refine ⟨?_, ?_, by decide⟩
  · intro resp h0 h1 h2 h3 hb
    exact retry_scenario_success resp h0 h1 h2 h3 hb
  · intro resp h
    exact retry_scenario_exhausted resp h

theorem c5_witness : request_with_retries c5Seq 5 = .ok ("OK".data) 4 [1, 2, 4] :=
  c5_retry_backoff_amended.1 c5Seq (by decide) (by decide) (by decide) (by decide) (by decide)

/-- **C5 counterexample.** The claim covers "every document family's fetcher",
but `EntsoePrices._request_with_retries` makes a single attempt and returns
nothing on a 429 — on the three-429s-then-success sequence it stops after 1
attempt with no body instead of succeeding on attempt 4. -/
theorem c5_counterexample : prices_request_with_retries c5Seq = (none, 1) := by
  decide

/-- A well-formed A11 document embedding the platform's in-band error:
`<Reason><code>999</code><text>No matching data found</text></Reason>` —
both `code` and `text` are leaf elements, hence *falsy* for `ElementTree`. -/
def a11InbandErrorDoc : A11Doc :=
  { reasons := [{ codeEl := some { text := some ("999".data), hasChildren := false },
                  codeCapEl := none,
                  textEl := some { text := some ("No matching data found".data),
                                   hasChildren := false },
                  textCapEl := none }],
    series := [] }

/-- The same in-band error as an A75 document. -/
def a75InbandErrorDoc : A75Doc :=
  { reasons := [("999".data, "No matching data found".data)], rootStart := none, series := [] }

/-- **C6 (code bug).** Every parser is supposed to raise on an in-band
`Reason` error instead of returning an empty success.  `_parse_a75` does; but
`_parse_a11`'s `reason.find("ns:code") or reason.find("ns:Code")` evaluates
the *truthiness* of the found element, and a leaf `<code>` element is falsy,
so the code/text are never read and the parser returns an empty success. -/
theorem c6_inband_error_swallowed :
    parse_a11 a11InbandErrorDoc ("OUT".data) ("IN".data) = .ok [] ∧
    parse_a75 a75InbandErrorDoc ("Z".data) =
      .error (.apiError ("999".data) ("No matching data found".data)) := by
  constructor
  · decide
  · decide

/-- Country→EIC map of the C7 scenario: `BG` and `RO` have one zone each,
`GR` has no mapping. -/
def c7CountryToEics : List (Str × List Str) :=
  [("BG".data, ["BG1".data]), ("RO".data, ["RO1".data])]

/-- Neighbor map of the C7 scenario: `BG`'s configured neighbors are
`{RO, GR}`. -/
def c7Neighbors : List (Str × List Str) :=
  [("BG".data, ["RO".data, "GR".data])]

/-- **C7.** Selecting `BG` with neighbors `{RO, GR}` where only `RO` is
mapped yields exactly the directed edges `(BG,RO)` and `(RO,BG)`, reports
`GR` as skipped, and expands to exactly the zone pairs `(BG1,RO1)` and
`(RO1,BG1)`; `_dedupe_pairs` deduplicates exactly, preserving first-occurrence
order, with `(A,B)` and `(B,A)` distinct. -/
theorem c7_neighbor_graph :
    build_neighbor_iso_edges ["BG".data] c7CountryToEics c7Neighbors =
      ([("BG".data, "RO".data), ("RO".data, "BG".data)], [], ["GR".data],
        [("BG".data, 1)]) ∧
    expand_iso_pairs_to_eic_pairs [("BG".data, "RO".data), ("RO".data, "BG".data)]
        c7CountryToEics =
      [("BG1".data, "RO1".data), ("RO1".data, "BG1".data)] ∧
    (∀ l : List (Str × Str), (dedupe_pairs l).Nodup ∧ List.Sublist (dedupe_pairs l) l ∧
      ∀ p, p ∈ dedupe_pairs l ↔ p ∈ l) ∧
    dedupe_pairs [("A".data, "B".data), ("B".data, "A".data)] =
      [("A".data, "B".data), ("B".data, "A".data)] := by
  refine ⟨by decide, by decide, ?_, by decide⟩
  intro l
  exact dedupByFirst_id_spec l

def c8GenRowOf (zone : Str) (v : Option Int) : CGenRow :=
  { country := "BG".data, zone := zone, ts := 5, psrType := some ("B16".data),
    psrName := some ("Solar".data), value := v }

def c8PriceRowOf (v : Option Rat) : CPriceRow :=
  { country := "BG".data, ts := 5, contract := some ("A01".data), price := v,
    currency := some ("EUR".data), unit := some ("MWH".data) }

/-- **C8 (amended).** In country aggregation, null values are excluded rather
than zeroed (`100` + null sums to `100`); a group in which every value is null
is still present, but the generation `groupby(...).sum()` gives it the
*number 0* (pandas `min_count=0`), not a null — only the prices mean yields a
null for an all-null group. -/
theorem c8_null_aggregation_amended :
    gen_aggregate_by_country [c8GenRowOf ("Z1".data) (some 100), c8GenRowOf ("Z2".data) none] =
      [(("BG".data, 5, "B16".data, "Solar".data), some 100)] ∧
    gen_aggregate_by_country [c8GenRowOf ("Z1".data) none, c8GenRowOf ("Z2".data) none] =
      [(("BG".data, 5, "B16".data, "Solar".data), some 0)] ∧
    prices_aggregate_by_country [c8PriceRowOf none, c8PriceRowOf none] =
      [(("BG".data, 5, "A01".data), none, some ("EUR".data), some ("MWH".data))] := by
  refine ⟨by decide, by decide, by decide⟩

/-- **C8 counterexample.** Summing an all-null generation group produces the
aggregate value `0` (a present number), not the null the claim requires. -/
theorem c8_counterexample :
    gen_aggregate_by_country [c8GenRowOf ("Z1".data) none, c8GenRowOf ("Z2".data) none] =
      [(("BG".data, 5, "B16".data, "Solar".data), some 0)] ∧
    (some (0 : Int)) ≠ none := by
  refine ⟨by decide, by decide⟩

def c9GenRowOf (v : Option Int) : GenRow :=
  { ts := 1, zone := "Z".data, psrType := some ("B16".data), psrName := some ("Solar".data),
    value := v, resolution := "PT60M".data }

def c9PriceRowOf (v : Option Rat) : PriceRow :=
  { ts := 1, zone := "Z".data, price := v, currency := some ("EUR".data),
    unit := some ("MWH".data), resolution := "PT60M".data, contract := some ("A01".data) }

/-- **C9 (amended).** In the non-aggregated pass-through mode, the generation
range query deduplicates with pandas' default `keep='first'` — the record seen
*earlier* in input order survives — while the prices range query uses
`keep='last'` and keeps the later record. -/
theorem c9_dedup_amended :
    (∀ (r1 r2 : GenRow) (s e : Int), genRowKey r1 = genRowKey r2 → s < e →
      e - s ≤ maxSpanMinutes → s ≤ r1.ts → r1.ts < e →
      get_range (fun _ => [r1, r2]) s e = ([r1], 1)) ∧
    (∀ (p1 p2 : PriceRow) (s e : Int), priceRowKey p1 = priceRowKey p2 →
      s ≤ p1.ts → p1.ts < e →
      get_prices_range (fun o => if o = 0 then [p1, p2] else []) false s e = ([p2], 1)) :=
  ⟨fun r1 r2 _ _ hkey h1 hspan h2 h3 => gen_dedup_keeps_first r1 r2 hkey h1 hspan h2 h3,
   fun p1 p2 _ _ hkey h2 h3 => prices_dedup_keeps_last p1 p2 hkey h2 h3⟩

theorem c9_witness :
    get_range (fun _ => [c9GenRowOf (some 100), c9GenRowOf (some 200)]) 0 10 =
      ([c9GenRowOf (some 100)], 1) :=
  c9_dedup_amended.1 (c9GenRowOf (some 100)) (c9GenRowOf (some 200)) 0 10 (by decide)
    (by decide) (by decide) (by decide) (by decide)

/-- **C9 counterexample.** Two generation records with the same dedup key and
values `100` (earlier) and `200` (later): the pass-through output keeps the
*earlier* `100`, not the later `200` the claim requires. -/
theorem c9_counterexample :
    get_range (fun _ => [c9GenRowOf (some 100), c9GenRowOf (some 200)]) 0 10 =
      ([c9GenRowOf (some 100)], 1) ∧
    c9GenRowOf (some 100) ≠ c9GenRowOf (some 200) := by
  refine ⟨by decide, by decide⟩

/-- The strict `(timestamp_utc, category)`-ascending order the claim asserts,
on A69 rows. -/
abbrev tsCategoryAscA69 (a b : A69Row) : Prop :=
  lexLtB intLtB strLtB (a.ts, a.psrType.getD []) (b.ts, b.psrType.getD []) = true

/-- An A69 document with two series for the same zone: `B16` publishing a
point at minute 100 and `B18` one at minute 50. -/
def c10A69Doc : A69Doc :=
  { reasons := [],
    rootStart := none,
    series := [{ psrType := "B16".data, unit := "MAW".data, zone := [],
                 resolution := "PT60M".data,
                 periods := [{ start := some 100, resolution := none,
                               points := [{ posText := some ("1".data),
                                            quantity := some 10 }] }] },
               { psrType := "B18".data, unit := "MAW".data, zone := [],
                 resolution := "PT60M".data,
                 periods := [{ start := some 50, resolution := none,
                               points := [{ posText := some ("1".data),
                                            quantity := some 20 }] }] }] }

def c10Row1 : A69Row :=
  { ts := 100, zone := "Z".data, psrType := some ("B16".data),
    psrName := some ("Solar".data), value := 10, unit := some ("MAW".data),
    resolution := "PT60M".data }

def c10Row2 : A69Row :=
  { ts := 50, zone := "Z".data, psrType := some ("B18".data),
    psrName := some ("Wind Offshore".data), value := 20, unit := some ("MAW".data),
    resolution := "PT60M".data }

/-- **C10 (amended).** Each parser sorts its output by its own family key
before returning — `_parse_a75` by `(timestamp, psr)`, `_parse_a44` by
`(timestamp, zone)`, `_parse_a11` by `(timestamp, out, in)`, all
timestamp-major and non-strict; but `_parse_a69` sorts by
`(zone, psr, timestamp)`, which is *not* ascending in
`(timestamp, category)`. -/
theorem c10_parser_ordering_amended :
    (∀ (doc : A75Doc) (zone : Str) (rows : List GenRow),
      parse_a75 doc zone = .ok rows → List.Sorted a75SortLE rows) ∧
    (∀ (doc : A44Doc) (zone : Str) (rows : List PriceRow),
      parse_a44 doc zone = .ok rows → List.Sorted a44SortLE rows) ∧
    (∀ (doc : A11Doc) (outFb inFb : Str) (rows : List FlowRow),
      parse_a11 doc outFb inFb = .ok rows → List.Sorted a11SortLE rows) ∧
    (∀ (doc : A69Doc) (zoneEic : Str) (allowed : List Str) (rows : List A69Row),
      parse_a69 doc zoneEic allowed = .ok rows → List.Sorted a69SortLE rows) :=
  ⟨fun _ _ _ h => parse_a75_sorted h,
   fun _ _ _ h => parse_a44_sorted h,
   fun _ _ _ _ h => parse_a11_sorted h,
   fun _ _ _ _ h => parse_a69_sorted h⟩

theorem c10_witness : List.Sorted a75SortLE [a75ExampleRow] :=
  c10_parser_ordering_amended.1 a75ExampleDoc ("BG".data) [a75ExampleRow] (by decide)

/-- **C10 counterexample.** `_parse_a69` on `c10A69Doc` returns the rows
sorted zone/PSR-major: timestamps `[100, 50]` — not (strictly or otherwise)
ascending by `(timestamp_utc, category)`. -/
theorem c10_counterexample :
    parse_a69 c10A69Doc ("Z".data) [] = .ok [c10Row1, c10Row2] ∧
    ¬ List.Sorted tsCategoryAscA69 [c10Row1, c10Row2] := by
  refine ⟨by decide, by decide⟩
